import Mathlib

/-!
Verification of the ais-forwarder forwarding engine.

This file gives a shallow embedding of the core of the
ais-forwarder repository: the Dispatcher pipeline of
`src/ais-forwarder/src/main.rs` (fragment reassembly, classification,
per-MMSI rate limiting, AIS broadcast, location scheduling) and the
Location worker of `src/ais-forwarder/src/location.rs` (message
formatting, persistence on failure, the resend cycle).

Modelling conventions:
* Rust `Instant` values are modelled as exact rationals (seconds on an
  abstract timeline); `Duration::as_secs` is the floor to whole seconds,
  with `Instant::duration_since` saturating at zero.
* `f64` coordinates are modelled as exact rationals; the literal `0.001`
  of `is_moving` is the rational 1/1000.
* Network sends are modelled by a pure oracle
  `send : String -> String -> Bool` giving the success of sending a
  payload to a named sink; the endpoint connection bookkeeping of
  `send_message` is outside the model.
* The sled key/value store of `cache.rs` is modelled as an association
  list with distinct keys, ordered as the store iterates it; store read
  faults (the `Err` arm of the sled iterator) are not modelled.
* The clock is sampled once per processed line.
-/

namespace AisForwarder

/-- Rust `Instant`, as rational seconds on an abstract timeline. -/
abbrev Instant := ℚ

/-- `now.duration_since(past).as_secs()`: saturating subtraction of
instants followed by truncation to whole seconds. -/
def durationSinceSecs (now past : Instant) : ℤ := ⌊max (now - past) 0⌋

/-- The subset of `nmea_parser::ParsedMessage` variants the forwarder
inspects; every other decoded variant is collapsed into `other`. -/
inductive ParsedMessage where
  | vesselDynamicData (mmsi : Nat) (ownVessel : Bool) (latitude longitude : Option ℚ)
  | vesselStaticData (mmsi : Nat) (ownVessel : Bool)
  | rmc (latitude longitude sogKnots bearing : Option ℚ)
  | incomplete
  | other
  deriving DecidableEq

namespace Location

/-- Keys of the persistence store are timestamped strings, values are
formatted NMEA sentences; the store is an association list in key order. -/
abbrev Store := List (String × String)

/-- The keys currently present in the store. -/
def keys (store : Store) : List String := store.map Prod.fst

/-- `sled::Db::remove`: drop the entry with the given key. -/
def removeKey (k : String) (store : Store) : Store :=
  store.filter (fun e => decide (e.1 ≠ k))

/-- The inner loop of `resend_messages` over `self.location.iter_mut()`:
send `value` to each sink in order, stopping at the first failure
(the `?` operator propagates it). Returns the successful transmissions
in order and whether every sink succeeded. -/
def sendToSinks (send : String → String → Bool) (value : String) :
    List String → List (String × String) × Bool
  | [] => ([], true)
  | s :: rest =>
    if send s value then
      let r := sendToSinks send value rest
      ((s, value) :: r.1, r.2)
    else ([], false)

/-- Result of a resend cycle: the store afterwards, the successful
transmissions `(sink, value)` in order, and whether the cycle returned
`Ok` (`true`) or propagated a send error (`false`). -/
structure ResendOut where
  store : Store
  sent : List (String × String)
  ok : Bool

/-- The iteration of `resend_messages` over the persistence iterator:
for each entry send the stored value to every Location sink, then remove
the key and flush; a send error propagates out immediately, leaving the
store as it stands. The first argument is the snapshot being iterated,
the second the live store being mutated. -/
def resendIter (send : String → String → Bool) (sinks : List String) :
    List (String × String) → Store → ResendOut
  | [], store => ⟨store, [], true⟩
  | (k, v) :: rest, store =>
    let s := sendToSinks send v sinks
    if s.2 then
      let r := resendIter send sinks rest (removeKey k store)
      ⟨r.store, s.1 ++ r.sent, r.ok⟩
    else ⟨store, s.1, false⟩

/-- `Location::resend_messages`: if the cached count is zero return
success without I/O, otherwise iterate the store in key order. -/
def resendMessages (send : String → String → Bool) (sinks : List String)
    (store : Store) : ResendOut :=
  if store.length = 0 then ⟨store, [], true⟩
  else resendIter send sinks store store

/-- Zero-pad a digit string on the left to the given width. -/
def padZeros (width : Nat) (s : String) : String :=
  String.mk (List.replicate (width - s.length) '0') ++ s

/-- Rust fixed-point float formatting with a given number of
decimals, as in the format specifiers of `parse_message`. The `f64` value
is idealized as an exact rational; a decimal tie rounds up (Rust rounds
the nearest-representable binary value, which essentially never is an
exact decimal tie). -/
def fmtFixed (prec : Nat) (x : ℚ) : String :=
  let scaled : ℤ := round (x * ((10 : ℚ) ^ prec))
  let sign := if scaled < 0 then "-" else ""
  let a := scaled.natAbs
  sign ++ toString (a / 10 ^ prec) ++ "." ++ padZeros prec (toString (a % 10 ^ prec))

/-- `Location::format_option`: one decimal when present, empty when absent. -/
def format_option (value : Option ℚ) : String :=
  match value with
  | some value => fmtFixed 1 value
  | none => ""

/-- `Location::format_lat_long`: DDDMM.mmmmm plus hemisphere for a present
value, a bare comma for an absent one. `f64::trunc` on the nonnegative
`abs_value` is its floor. -/
def format_lat_long (latlon : Option ℚ) (is_lat : Bool) : String :=
  match latlon with
  | some value =>
    let hemisphere :=
      if is_lat then (if value ≥ 0 then "N" else "S")
      else (if value ≥ 0 then "E" else "W")
    let abs_value := |value|
    let degrees : ℤ := ⌊abs_value⌋
    let minutes : ℚ := (abs_value - (degrees : ℚ)) * 60
    fmtFixed 5 ((degrees : ℚ) * 100 + minutes) ++ "," ++ hemisphere
  | none => ","

/-- The common shape of the GNRMC sentence built by `parse_message`. -/
def gnrmcSentence (mmsiStr timeStr latStr lonStr sogStr cogStr dateStr : String) : String :=
  mmsiStr ++ "$GNRMC," ++ timeStr ++ ",A," ++ latStr ++ "," ++ lonStr ++ "," ++
    sogStr ++ "," ++ cogStr ++ "," ++ dateStr ++ ",,,A\r\n"

/-- The sentence `parse_message` formats for a message, `none` for the
variants it logs and ignores. `timeStr` and `dateStr` stand for the
chrono-formatted HHMMSS and DDMMYY strings (from the message's own
timestamp for `Rmc` when present, else the current clock), which are
outside the model. -/
def formatMessage (selfMmsi : Nat) (timeStr dateStr : String) :
    ParsedMessage → Option String
  | .vesselDynamicData mmsi _ lat lon =>
    some (gnrmcSentence (toString mmsi) timeStr (format_lat_long lat true)
      (format_lat_long lon false) "" "" dateStr)
  | .rmc lat lon sog bearing =>
    some (gnrmcSentence (toString selfMmsi) timeStr (format_lat_long lat true)
      (format_lat_long lon false) (format_option sog) (format_option bearing) dateStr)
  | _ => none

/-- `sled::Db::insert`: overwrite the value under an existing key, append
a new entry otherwise. -/
def storeInsert (store : Store) (k v : String) : Store :=
  if k ∈ keys store then
    store.map (fun e => if e.1 = k then (k, v) else e)
  else store ++ [(k, v)]

/-- Result of `Location::parse_message`: the store afterwards, the
successful transmissions, and the returned `io::Result` (`true` for `Ok`;
every return path of the source returns `Ok(())`). -/
structure ParseMsgOut where
  store : Store
  sent : List (String × String)
  ok : Bool

/-- The per-sink loop of `parse_message`: under a down connection flag
store the sentence under key `now ++ "-" ++ sink` without sending;
otherwise send and store only on failure. -/
def parseMsgSinks (send : String → String → Bool) (nowStr nmea_message : String)
    (connection_ok : Bool) : Store → List String → ParseMsgOut
  | store, [] => ⟨store, [], true⟩
  | store, sinkName :: rest =>
    let db_key := nowStr ++ "-" ++ sinkName
    if connection_ok = false then
      let r := parseMsgSinks send nowStr nmea_message connection_ok
        (storeInsert store db_key nmea_message) rest
      ⟨r.store, r.sent, r.ok⟩
    else if send sinkName nmea_message then
      let r := parseMsgSinks send nowStr nmea_message connection_ok store rest
      ⟨r.store, (sinkName, nmea_message) :: r.sent, r.ok⟩
    else
      let r := parseMsgSinks send nowStr nmea_message connection_ok
        (storeInsert store db_key nmea_message) rest
      ⟨r.store, r.sent, r.ok⟩

/-- `Location::parse_message`: format the message and run the per-sink
loop; unsupported variants return `Ok` without touching the store. -/
def parse_message (send : String → String → Bool) (sinks : List String)
    (nowStr timeStr dateStr : String) (selfMmsi : Nat) (connection_ok : Bool)
    (store : Store) (message : ParsedMessage) : ParseMsgOut :=
  match formatMessage selfMmsi timeStr dateStr message with
  | none => ⟨store, [], true⟩
  | some nmea_message => parseMsgSinks send nowStr nmea_message connection_ok store sinks

/-- The Location worker's loop state: the persistence store and the
`connection_ok` flag. -/
structure LoopState where
  store : Store
  connection_ok : Bool

/-- The `Ok(message)` arm of `Location::location_loop`: when the
connection flag is down first drain the backlog with `resend_messages`
and set the flag from its outcome, then handle the message with
`parse_message` and set the flag from its returned result. -/
def handleReceived (send : String → String → Bool) (sinks : List String)
    (nowStr timeStr dateStr : String) (selfMmsi : Nat) (st : LoopState)
    (message : ParsedMessage) : LoopState :=
  let afterResend : LoopState :=
    if st.connection_ok = false then
      let r := resendMessages send sinks st.store
      ⟨r.store, r.ok⟩
    else st
  let p := parse_message send sinks nowStr timeStr dateStr selfMmsi
    afterResend.connection_ok afterResend.store message
  ⟨p.store, p.ok⟩

end Location

namespace Dispatcher

/-- The Dispatcher's configuration: the three intervals (seconds) and the
named AIS sinks in iteration order. -/
structure Config where
  interval : Nat
  locationInterval : Nat
  locationAnchorInterval : Nat
  aisSinks : List String
  deriving DecidableEq

/-- One row of the `last_sent` table. -/
structure LastSentRow where
  vesselDynamicData : Instant
  vesselStaticData : Instant
  deriving DecidableEq

/-- `HashMap<u32, LastSent>` as an association list with distinct keys. -/
abbrev LastSentTable := List (Nat × LastSentRow)

def lookupRow (table : LastSentTable) (mmsi : Nat) : Option LastSentRow :=
  match table with
  | [] => none
  | (k, r) :: rest => if k = mmsi then some r else lookupRow rest mmsi

def insertRow (table : LastSentTable) (mmsi : Nat) (r : LastSentRow) : LastSentTable :=
  match table with
  | [] => [(mmsi, r)]
  | (k, v) :: rest =>
    if k = mmsi then (k, r) :: rest else (k, v) :: insertRow rest mmsi r

/-- The interval `check_last_sent` selects for a message's own flag. -/
def ratedInterval (cfg : Config) (own_vessel : Bool) : Nat :=
  if own_vessel then cfg.locationInterval else cfg.interval

/-- `Dispatcher::check_last_sent`: look up or seed the row for the MMSI
(seed timestamps are `now - interval`), accept iff the whole seconds
elapsed since the field's timestamp reach the interval, updating the
field to `now` on acceptance. -/
def checkLastSent (cfg : Config) (table : LastSentTable) (m : ParsedMessage)
    (now : Instant) : Bool × LastSentTable :=
  match m with
  | .vesselDynamicData mmsi own_vessel _ _ =>
    let interval := ratedInterval cfg own_vessel
    let elapsed : Instant := now - (interval : ℚ)
    let row := (lookupRow table mmsi).getD ⟨elapsed, elapsed⟩
    let table1 := insertRow table mmsi row
    if durationSinceSecs now row.vesselDynamicData ≥ (interval : ℤ) then
      (true, insertRow table1 mmsi { row with vesselDynamicData := now })
    else (false, table1)
  | .vesselStaticData mmsi own_vessel =>
    let interval := ratedInterval cfg own_vessel
    let elapsed : Instant := now - (interval : ℚ)
    let row := (lookupRow table mmsi).getD ⟨elapsed, elapsed⟩
    let table1 := insertRow table mmsi row
    if durationSinceSecs now row.vesselStaticData ≥ (interval : ℤ) then
      (true, insertRow table1 mmsi { row with vesselStaticData := now })
    else (false, table1)
  | _ => (false, table)

/-- The rate-limit key of a message: its MMSI and whether it updates the
dynamic (`true`) or static (`false`) field. -/
def msgKey : ParsedMessage → Option (Nat × Bool)
  | .vesselDynamicData mmsi _ _ _ => some (mmsi, true)
  | .vesselStaticData mmsi _ => some (mmsi, false)
  | _ => none

def msgRatedInterval (cfg : Config) : ParsedMessage → Nat
  | .vesselDynamicData _ own_vessel _ _ => ratedInterval cfg own_vessel
  | .vesselStaticData _ own_vessel => ratedInterval cfg own_vessel
  | _ => 0

/-- One `check_last_sent` call as observed from outside. -/
structure RateEvent where
  key : Option (Nat × Bool)
  accepted : Bool
  interval : Nat
  time : Instant
  deriving DecidableEq

/-- The sequence of `check_last_sent` calls a Dispatcher instance makes,
threading the `last_sent` table. -/
def checkRun (cfg : Config) (table : LastSentTable) :
    List (ParsedMessage × Instant) → LastSentTable × List RateEvent
  | [] => (table, [])
  | (m, now) :: rest =>
    let p := checkLastSent cfg table m now
    let r := checkRun cfg p.2 rest
    (r.1, ⟨msgKey m, p.1, msgRatedInterval cfg m, now⟩ :: r.2)

/-- The timestamp a rate-limit key `(mmsi, isDyn)` selects in a row. -/
def fieldTime (row : LastSentRow) (isDyn : Bool) : Instant :=
  if isDyn then row.vesselDynamicData else row.vesselStaticData

/-- The stored timestamp for a rate-limit key, when its MMSI has a row. -/
def lookupField (table : LastSentTable) (k : Nat × Bool) : Option Instant :=
  (lookupRow table k.1).map (fun row => fieldTime row k.2)

/-- The event is an accepted broadcast for the rate-limit key `k`. -/
def acceptedFor (k : Nat × Bool) (e : RateEvent) : Prop :=
  e.accepted = true ∧ e.key = some k

/-- `is_moving`: more than 0.001 degrees of change on either axis; false
whenever a coordinate is absent. -/
def is_moving (lat long : Option ℚ) (prev_lat prev_long : ℚ) : Bool :=
  match lat, long with
  | some lat, some long =>
    decide (|lat - prev_lat| > 1/1000) || decide (|long - prev_long| > 1/1000)
  | _, _ => false

/-- The classification match at the head of the `Dispatcher::work` line
loop: the location-eligibility triple (`own_vessel`, latitude, longitude)
when the message is one of the three handled variants, and the updated
`allow_ais_for_location` (latched to false by `Rmc`). -/
def classify (allow_ais_for_location : Bool) :
    ParsedMessage → Option (Bool × Option ℚ × Option ℚ) × Bool
  | .vesselDynamicData _ own_vessel lat long =>
    (some (allow_ais_for_location && own_vessel, lat, long), allow_ais_for_location)
  | .vesselStaticData _ _ => (some (false, none, none), allow_ais_for_location)
  | .rmc lat long _ _ => (some (true, lat, long), false)
  | _ => (none, allow_ais_for_location)

/-- `Dispatcher::next_location_instant` and its anchor twin, parameterized
by the interval: `now` plus the remaining wait (in whole seconds). -/
def nextInstantF (interval : Nat) (last_sent_location now : Instant) : Instant :=
  let elapsed := durationSinceSecs now last_sent_location
  let wait_period : ℤ := if elapsed < (interval : ℤ) then (interval : ℤ) - elapsed else 0
  now + (wait_period : ℚ)

/-- The Dispatcher state visible to one invocation of `work`: the fields
of the `Dispatcher` struct this model tracks plus the locals of `work`. -/
structure State where
  allow_ais_for_location : Bool
  prev_lat : ℚ
  prev_long : ℚ
  last_sent_location : Instant
  next_location_instant : Instant
  next_location_anchor_instant : Instant
  last_sent : LastSentTable
  fragments : List String
  deriving DecidableEq

/-- `Dispatcher::new` at time `tNew` (seeding `last_sent_location` one
`location_interval` in the past and an empty `last_sent` table) followed
by the local initialization at the top of `Dispatcher::work` at time
`tWork`. -/
def initState (cfg : Config) (tNew tWork : Instant) : State :=
  { allow_ais_for_location := true
    prev_lat := 0
    prev_long := 0
    last_sent_location := tNew - (cfg.locationInterval : ℚ)
    next_location_instant :=
      nextInstantF cfg.locationInterval (tNew - (cfg.locationInterval : ℚ)) tWork
    next_location_anchor_instant :=
      nextInstantF cfg.locationAnchorInterval (tNew - (cfg.locationInterval : ℚ)) tWork
    last_sent := []
    fragments := [] }

/-- `Dispatcher::broadcast_ais`: send the payload to every AIS sink in
order; the first failure propagates out of `work`. -/
def broadcastAis (send : String → String → Bool) (payload : String) :
    List String → List (String × String) × Bool
  | [] => ([], true)
  | s :: rest =>
    if send s payload then
      ((s, payload) :: (broadcastAis send payload rest).1,
        (broadcastAis send payload rest).2)
    else ([], false)

/-- The outcome of `parse_sentence` on one line. -/
inductive ParseOutcome where
  | ok (m : ParsedMessage)
  | err
  deriving DecidableEq

/-- What processing one line does: the state afterwards, the successful
AIS transmissions, whether the rate limit passed, the message handed off
to the Location worker if any, and whether `work` aborted with an
I/O error. -/
structure StepOut where
  state : State
  aisSent : List (String × String)
  rateAccepted : Bool
  locEmit : Option ParsedMessage
  err : Bool
  deriving DecidableEq

/-- The body of the `for line in message.lines()` loop of
`Dispatcher::work`, for one line. The clock is sampled once per line. -/
def processLine (cfg : Config) (send : String → String → Bool) (st : State)
    (line : String) (outcome : ParseOutcome) (now : Instant) : StepOut :=
  match outcome with
  | .err => ⟨{ st with fragments := [] }, [], false, none, false⟩
  | .ok parsed_message =>
    if parsed_message = .incomplete then
      ⟨{ st with fragments := st.fragments ++ [line] }, [], false, none, false⟩
    else
      match classify st.allow_ais_for_location parsed_message with
      | (none, allow) =>
        ⟨{ st with allow_ais_for_location := allow }, [], false, none, false⟩
      | (some (own_vessel, lat, long), allow) =>
        let fragments := st.fragments ++ [line]
        let check := checkLastSent cfg st.last_sent parsed_message now
        let st1 : State := { st with
          allow_ais_for_location := allow
          last_sent := check.2
          fragments := fragments }
        let payload := String.join fragments
        let bc := if check.1 then broadcastAis send payload cfg.aisSinks else ([], true)
        if bc.2 = false then
          ⟨st1, bc.1, check.1, none, true⟩
        else if own_vessel then
          if decide (now ≥ st.next_location_anchor_instant)
              || (decide (now ≥ st.next_location_instant)
                  && is_moving lat long st.prev_lat st.prev_long) then
            ⟨{ st1 with
                prev_lat := lat.getD 0
                prev_long := long.getD 0
                last_sent_location := now
                next_location_instant := nextInstantF cfg.locationInterval now now
                next_location_anchor_instant :=
                  nextInstantF cfg.locationAnchorInterval now now
                fragments := [] },
              bc.1, check.1, some parsed_message, false⟩
          else ⟨{ st1 with fragments := [] }, bc.1, check.1, none, false⟩
        else ⟨{ st1 with fragments := [] }, bc.1, check.1, none, false⟩

/-- One line's worth of input to the work loop: the raw line, its parse
outcome, and the clock when it is processed. -/
structure LineIn where
  line : String
  outcome : ParseOutcome
  now : Instant
  deriving DecidableEq

/-- The observable record of one processed line. -/
structure Event where
  outcome : ParseOutcome
  rateAccepted : Bool
  locEmit : Option ParsedMessage
  deriving DecidableEq

/-- A run of the work loop: final state, per-line events, and whether it
aborted with an I/O error (after which `main` rebuilds the Dispatcher). -/
structure RunOut where
  state : State
  events : List Event
  aborted : Bool
  deriving DecidableEq

/-- Run `Dispatcher::work` over a sequence of lines, stopping at the
first I/O error. -/
def runLines (cfg : Config) (send : String → String → Bool) (st : State) :
    List LineIn → RunOut
  | [] => ⟨st, [], false⟩
  | li :: rest =>
    let so := processLine cfg send st li.line li.outcome li.now
    if so.err then ⟨so.state, [⟨li.outcome, so.rateAccepted, so.locEmit⟩], true⟩
    else
      let r := runLines cfg send so.state rest
      ⟨r.state, ⟨li.outcome, so.rateAccepted, so.locEmit⟩ :: r.events, r.aborted⟩

end Dispatcher

end AisForwarder

namespace AisForwarder.Location

theorem keys_cons (k v : String) (rest : Store) :
    keys ((k, v) :: rest) = k :: keys rest := rfl

theorem sendToSinks_ok_mem (send : String → String → Bool) (value : String)
    (sinks : List String) (hok : (sendToSinks send value sinks).2 = true) :
    ∀ s ∈ sinks, (s, value) ∈ (sendToSinks send value sinks).1 := by
  induction sinks with
  | nil => intro s hs; cases hs
  | cons s0 rest ih =>
    intro s hs
    by_cases h0 : send s0 value = true
    · simp only [sendToSinks, h0, if_true] at hok ⊢
      rcases List.mem_cons.mp hs with rfl | hmem
      · exact List.mem_cons_self _ _
      · exact List.mem_cons_of_mem _ (ih hok s hmem)
    · simp only [sendToSinks, h0, if_false] at hok
      exact absurd hok (by simp)

theorem removeKey_cons_self (k v : String) (rest : Store) (h : k ∉ keys rest) :
    removeKey k ((k, v) :: rest) = rest := by
  have h1 : decide ((k, v).1 ≠ k) = false := by simp
  simp only [removeKey, List.filter_cons, h1, Bool.false_eq_true, if_false]
  apply List.filter_eq_self.mpr
  intro e he
  simp only [decide_eq_true_eq]
  intro hek
  exact h (hek ▸ List.mem_map_of_mem Prod.fst he)

theorem resendIter_cons_self (send : String → String → Bool) (sinks : List String)
    (k v : String) (rest : Store) (hkn : k ∉ keys rest) :
    resendIter send sinks ((k, v) :: rest) ((k, v) :: rest) =
      if (sendToSinks send v sinks).2 then
        ⟨(resendIter send sinks rest rest).store,
          (sendToSinks send v sinks).1 ++ (resendIter send sinks rest rest).sent,
          (resendIter send sinks rest rest).ok⟩
      else ⟨(k, v) :: rest, (sendToSinks send v sinks).1, false⟩ := by
  rw [resendIter, removeKey_cons_self k v rest hkn]

theorem resendIter_self_ok (send : String → String → Bool) (sinks : List String)
    (l : Store) (hnd : (keys l).Nodup) (hok : (resendIter send sinks l l).ok = true) :
    (resendIter send sinks l l).store = [] ∧
      ∀ e ∈ l, ∀ s ∈ sinks, (s, e.2) ∈ (resendIter send sinks l l).sent := by
  induction l with
  | nil => exact ⟨rfl, by intro e he; cases he⟩
  | cons hd rest ih =>
    obtain ⟨k, v⟩ := hd
    rw [keys_cons, List.nodup_cons] at hnd
    rw [resendIter_cons_self send sinks k v rest hnd.1] at hok ⊢
    by_cases hsend : (sendToSinks send v sinks).2 = true
    · simp only [hsend, if_true] at hok ⊢
      obtain ⟨hstore, hsent⟩ := ih hnd.2 hok
      refine ⟨hstore, ?_⟩
      intro e he s hs
      rcases List.mem_cons.mp he with rfl | hmem
      · exact List.mem_append_left _ (sendToSinks_ok_mem send v sinks hsend s hs)
      · exact List.mem_append_right _ (hsent e hmem s hs)
    · simp only [hsend, Bool.false_eq_true, if_false] at hok

theorem resendIter_self_removed (send : String → String → Bool) (sinks : List String)
    (l : Store) (hnd : (keys l).Nodup) :
    ∀ e ∈ l, e.1 ∉ keys (resendIter send sinks l l).store →
      ∀ s ∈ sinks, (s, e.2) ∈ (resendIter send sinks l l).sent := by
  induction l with
  | nil => intro e he; cases he
  | cons hd rest ih =>
    obtain ⟨k, v⟩ := hd
    rw [keys_cons, List.nodup_cons] at hnd
    rw [resendIter_cons_self send sinks k v rest hnd.1]
    by_cases hsend : (sendToSinks send v sinks).2 = true
    · simp only [hsend, if_true]
      intro e he hrm s hs
      rcases List.mem_cons.mp he with rfl | hmem
      · exact List.mem_append_left _ (sendToSinks_ok_mem send v sinks hsend s hs)
      · exact List.mem_append_right _ (ih hnd.2 e hmem hrm s hs)
    · simp only [hsend, Bool.false_eq_true, if_false]
      intro e he hrm s hs
      exact absurd (List.mem_map_of_mem Prod.fst he) hrm

theorem resendIter_self_failed (send : String → String → Bool) (sinks : List String)
    (l : Store) (hnd : (keys l).Nodup) :
    ∀ e ∈ l, (sendToSinks send e.2 sinks).2 = false →
      e.1 ∈ keys (resendIter send sinks l l).store ∧
        (resendIter send sinks l l).ok = false := by
  induction l with
  | nil => intro e he; cases he
  | cons hd rest ih =>
    obtain ⟨k, v⟩ := hd
    rw [keys_cons, List.nodup_cons] at hnd
    rw [resendIter_cons_self send sinks k v rest hnd.1]
    intro e he hfail
    by_cases hsend : (sendToSinks send v sinks).2 = true
    · simp only [hsend, if_true]
      rcases List.mem_cons.mp he with rfl | hmem
      · exact absurd hsend (by simp [hfail])
      · exact ih hnd.2 e hmem hfail
    · simp only [hsend, Bool.false_eq_true, if_false]
      exact ⟨List.mem_map_of_mem Prod.fst he, by trivial⟩

end AisForwarder.Location

section Claims1

open AisForwarder AisForwarder.Location

/-- C1 (confirmed): in the resend cycle, a stored record's key is removed
from persistence only after `send_message` succeeded for that record's
value to every Location sink in that cycle, and on a successful cycle
every key present at the start is absent afterwards with its value
transmitted to every Location sink at least once. -/
theorem C1_resend_at_least_once (send : String → String → Bool) (sinks : List String)
    (store : Store) (hnd : (keys store).Nodup) :
    (∀ e ∈ store, e.1 ∉ keys (resendMessages send sinks store).store →
        ∀ s ∈ sinks, (s, e.2) ∈ (resendMessages send sinks store).sent) ∧
    ((resendMessages send sinks store).ok = true →
      ∀ e ∈ store, e.1 ∉ keys (resendMessages send sinks store).store ∧
        ∀ s ∈ sinks, (s, e.2) ∈ (resendMessages send sinks store).sent) := by
  rw [resendMessages]
  by_cases hlen : store.length = 0
  · rw [List.length_eq_zero] at hlen
    subst hlen
    simp only [List.length_nil, if_true]
    exact ⟨fun e he => absurd he (List.not_mem_nil e),
      fun _ e he => absurd he (List.not_mem_nil e)⟩
  · simp only [hlen, if_false]
    refine ⟨resendIter_self_removed send sinks store hnd, fun hok e he => ?_⟩
    obtain ⟨hstore, hsent⟩ := resendIter_self_ok send sinks store hnd hok
    exact ⟨by rw [hstore]; exact List.not_mem_nil _, hsent e he⟩

/-- Witness for C1 at a concrete store of two records, two sinks, and a
send oracle that always succeeds. -/
theorem C1_witness :
    (keys [("k1", "v1"), ("k2", "v2")]).Nodup ∧
    ((∀ e ∈ [("k1", "v1"), ("k2", "v2")],
        e.1 ∉ keys (resendMessages (fun _ _ => true) ["a", "b"]
            [("k1", "v1"), ("k2", "v2")]).store →
        ∀ s ∈ ["a", "b"], (s, e.2) ∈ (resendMessages (fun _ _ => true) ["a", "b"]
            [("k1", "v1"), ("k2", "v2")]).sent) ∧
      ((resendMessages (fun _ _ => true) ["a", "b"] [("k1", "v1"), ("k2", "v2")]).ok = true →
        ∀ e ∈ [("k1", "v1"), ("k2", "v2")],
          e.1 ∉ keys (resendMessages (fun _ _ => true) ["a", "b"]
              [("k1", "v1"), ("k2", "v2")]).store ∧
          ∀ s ∈ ["a", "b"], (s, e.2) ∈ (resendMessages (fun _ _ => true) ["a", "b"]
              [("k1", "v1"), ("k2", "v2")]).sent)) :=
  ⟨by decide, C1_resend_at_least_once (fun _ _ => true) ["a", "b"]
    [("k1", "v1"), ("k2", "v2")] (by decide)⟩

/-- C2 (corrected): counterexample to the claim that a partially broadcast
value's key is removed when a later sink fails. With sinks `a` then `b`,
where `a` succeeds and `b` fails, the cycle errors out, sink `a` has
received the value, and the key is still in the store, not removed. -/
theorem C2_counterexample :
    (resendMessages (fun s _ => decide (s = "a")) ["a", "b"] [("k", "v")]).store
        = [("k", "v")] ∧
      ("a", "v") ∈ (resendMessages (fun s _ => decide (s = "a")) ["a", "b"]
        [("k", "v")]).sent ∧
      (resendMessages (fun s _ => decide (s = "a")) ["a", "b"] [("k", "v")]).ok = false := by
  decide

/-- C2 (corrected): in the resend cycle a send error propagates out
immediately and the failing entry's key is NOT removed: every stored
record whose value fails to reach some Location sink keeps its key in
persistence, and the cycle reports the error; sinks earlier in the
iteration have already received the value, so replay can deliver
duplicates. -/
theorem C2_failed_entry_kept (send : String → String → Bool) (sinks : List String)
    (store : Store) (hnd : (keys store).Nodup) :
    ∀ e ∈ store, (sendToSinks send e.2 sinks).2 = false →
      e.1 ∈ keys (resendMessages send sinks store).store ∧
        (resendMessages send sinks store).ok = false := by
  rw [resendMessages]
  by_cases hlen : store.length = 0
  · rw [List.length_eq_zero] at hlen
    subst hlen
    intro e he
    cases he
  · simp only [hlen, if_false]
    exact resendIter_self_failed send sinks store hnd

/-- Witness for C2's amended claim: one record, sink `a` succeeds and
sink `b` fails, so the record's key survives and the cycle errors. -/
theorem C2_witness :
    (keys [("k", "v")]).Nodup ∧
    (∀ e ∈ [("k", "v")],
      (sendToSinks (fun s _ => decide (s = "a")) e.2 ["a", "b"]).2 = false →
        e.1 ∈ keys (resendMessages (fun s _ => decide (s = "a")) ["a", "b"]
            [("k", "v")]).store ∧
          (resendMessages (fun s _ => decide (s = "a")) ["a", "b"] [("k", "v")]).ok
            = false) :=
  ⟨by decide, C2_failed_entry_kept (fun s _ => decide (s = "a")) ["a", "b"]
    [("k", "v")] (by decide)⟩

end Claims1

namespace AisForwarder.Location

theorem dbKey_inj (nowStr a b : String) (h : nowStr ++ "-" ++ a = nowStr ++ "-" ++ b) :
    a = b := by
  have h2 := congrArg String.data h
  simp only [String.data_append] at h2
  exact String.ext (List.append_cancel_left h2)

theorem storeInsert_mem_self (store : Store) (k v : String) :
    (k, v) ∈ storeInsert store k v := by
  rw [storeInsert]
  by_cases hk : k ∈ keys store
  · rw [if_pos hk]
    obtain ⟨e, he, hek⟩ := List.mem_map.mp hk
    refine List.mem_map.mpr ⟨e, he, ?_⟩
    simp [hek]
  · rw [if_neg hk]
    exact List.mem_append_right _ (List.mem_singleton_self _)

theorem storeInsert_mem_of_ne (store : Store) (k v : String) (e : String × String)
    (he : e ∈ store) (hne : e.1 ≠ k) : e ∈ storeInsert store k v := by
  rw [storeInsert]
  by_cases hk : k ∈ keys store
  · rw [if_pos hk]
    refine List.mem_map.mpr ⟨e, he, ?_⟩
    simp [hne]
  · rw [if_neg hk]
    exact List.mem_append_left _ he

theorem parseMsgSinks_ok (send : String → String → Bool) (nowStr nmea : String)
    (c : Bool) : ∀ (sinks : List String) (store : Store),
    (parseMsgSinks send nowStr nmea c store sinks).ok = true := by
  intro sinks
  induction sinks with
  | nil => intro store; rfl
  | cons s0 rest ih =>
    intro store
    rw [parseMsgSinks]
    by_cases hc : c = false
    · rw [if_pos hc]; exact ih _
    · rw [if_neg hc]
      by_cases hs : send s0 nmea = true
      · rw [if_pos hs]; exact ih _
      · rw [if_neg hs]; exact ih _

theorem parseMsgSinks_store_preserve (send : String → String → Bool)
    (nowStr nmea : String) (c : Bool) :
    ∀ (sinks : List String) (store : Store) (e : String × String),
    e ∈ store → (∀ s ∈ sinks, e.1 ≠ nowStr ++ "-" ++ s) →
    e ∈ (parseMsgSinks send nowStr nmea c store sinks).store := by
  intro sinks
  induction sinks with
  | nil => intro store e he _; exact he
  | cons s0 rest ih =>
    intro store e he hne
    rw [parseMsgSinks]
    have hne0 : e.1 ≠ nowStr ++ "-" ++ s0 := hne s0 (List.mem_cons_self _ _)
    have hner : ∀ s ∈ rest, e.1 ≠ nowStr ++ "-" ++ s :=
      fun s hs => hne s (List.mem_cons_of_mem _ hs)
    by_cases hc : c = false
    · rw [if_pos hc]
      exact ih _ _ (storeInsert_mem_of_ne _ _ _ _ he hne0) hner
    · rw [if_neg hc]
      by_cases hs : send s0 nmea = true
      · rw [if_pos hs]
        exact ih _ _ he hner
      · rw [if_neg hs]
        exact ih _ _ (storeInsert_mem_of_ne _ _ _ _ he hne0) hner

theorem parseMsgSinks_store_mem (send : String → String → Bool) (nowStr nmea : String)
    (c : Bool) : ∀ (sinks : List String) (store : Store), sinks.Nodup →
    ∀ s ∈ sinks, (c = false ∨ send s nmea = false) →
      (nowStr ++ "-" ++ s, nmea) ∈ (parseMsgSinks send nowStr nmea c store sinks).store := by
  intro sinks
  induction sinks with
  | nil => intro store _ s hs; cases hs
  | cons s0 rest ih =>
    intro store hnd s hs hcond
    rw [List.nodup_cons] at hnd
    rw [parseMsgSinks]
    rcases List.mem_cons.mp hs with rfl | hmem
    · have hpres : ∀ st2 : Store, (nowStr ++ "-" ++ s, nmea) ∈ st2 →
          (nowStr ++ "-" ++ s, nmea)
            ∈ (parseMsgSinks send nowStr nmea c st2 rest).store := by
        intro st2 hmem2
        refine parseMsgSinks_store_preserve send nowStr nmea c rest st2 _ hmem2 ?_
        intro t ht hEq
        have heq2 : s = t := dbKey_inj nowStr s t hEq
        exact hnd.1 (by rwa [← heq2] at ht)
      by_cases hc : c = false
      · rw [if_pos hc]
        exact hpres _ (storeInsert_mem_self _ _ _)
      · rw [if_neg hc]
        have hsf : send s nmea = false := by
          rcases hcond with h | h
          · exact absurd h hc
          · exact h
        rw [hsf, if_neg (by simp)]
        exact hpres _ (storeInsert_mem_self _ _ _)
    · by_cases hc : c = false
      · rw [if_pos hc]; exact ih _ hnd.2 s hmem hcond
      · rw [if_neg hc]
        by_cases hs0 : send s0 nmea = true
        · rw [if_pos hs0]; exact ih _ hnd.2 s hmem hcond
        · rw [if_neg hs0]; exact ih _ hnd.2 s hmem hcond

theorem parse_message_ok (send : String → String → Bool) (sinks : List String)
    (nowStr timeStr dateStr : String) (selfMmsi : Nat) (c : Bool) (store : Store)
    (message : ParsedMessage) :
    (parse_message send sinks nowStr timeStr dateStr selfMmsi c store message).ok
      = true := by
  rw [parse_message]
  cases hfmt : formatMessage selfMmsi timeStr dateStr message with
  | none => rfl
  | some nmea => exact parseMsgSinks_ok send nowStr nmea c sinks store

end AisForwarder.Location

section Claims3

open AisForwarder AisForwarder.Location

/-- C3 (corrected): counterexample to the claim that the worker's
connection-ok flag becomes false after a message whose sink send failed.
With one sink whose send fails, the formatted sentence is stored, yet
the flag is true afterwards: `parse_message` catches send errors and
returns success on every path, so `location_loop` sets the flag to true. -/
theorem C3_counterexample :
    ((handleReceived (fun _ _ => false) ["loc1"] "T0" "HH" "DD" 123 ⟨[], true⟩
        (ParsedMessage.vesselDynamicData 123 true none none)).connection_ok = true) ∧
      (handleReceived (fun _ _ => false) ["loc1"] "T0" "HH" "DD" 123 ⟨[], true⟩
        (ParsedMessage.vesselDynamicData 123 true none none)).store
        = [("T0-loc1", "123$GNRMC,HH,A,,,,,,,DD,,,A\r\n")] := by
  decide

/-- C3 (corrected, amended): whenever handling a received message meets a
sink send failure (or the connection flag is down after the optional
resend), the formatted sentence is stored in persistence under the key
`now ++ "-" ++ sink-name`; however the connection-ok flag is true after
the message is handled, because `parse_message` catches send errors and
always returns success. -/
theorem C3_stored_but_flag_true (send : String → String → Bool) (sinks : List String)
    (nowStr timeStr dateStr : String) (selfMmsi : Nat) (st : LoopState)
    (message : ParsedMessage) (nmea : String)
    (hfmt : formatMessage selfMmsi timeStr dateStr message = some nmea)
    (hnd : sinks.Nodup) :
    ((handleReceived send sinks nowStr timeStr dateStr selfMmsi st message).connection_ok
        = true) ∧
      ∀ s ∈ sinks,
        ((if st.connection_ok = false then (resendMessages send sinks st.store).ok
            else st.connection_ok) = false ∨ send s nmea = false) →
          (nowStr ++ "-" ++ s, nmea)
            ∈ (handleReceived send sinks nowStr timeStr dateStr selfMmsi st message).store := by
  rw [handleReceived]
  by_cases hco : st.connection_ok = false
  · rw [if_pos hco]
    simp only [parse_message, hfmt]
    refine ⟨parseMsgSinks_ok send nowStr nmea _ sinks _, ?_⟩
    intro s hs hcond
    rw [if_pos hco] at hcond
    exact parseMsgSinks_store_mem send nowStr nmea _ sinks _ hnd s hs hcond
  · rw [if_neg hco]
    simp only [parse_message, hfmt]
    refine ⟨parseMsgSinks_ok send nowStr nmea _ sinks _, ?_⟩
    intro s hs hcond
    rw [if_neg hco] at hcond
    exact parseMsgSinks_store_mem send nowStr nmea _ sinks _ hnd s hs hcond

/-- Witness for C3's amended claim at a concrete failing sink. -/
theorem C3_witness :
    (formatMessage 123 "HH" "DD" (ParsedMessage.vesselDynamicData 123 true none none)
        = some "123$GNRMC,HH,A,,,,,,,DD,,,A\r\n") ∧
    (["loc1"] : List String).Nodup ∧
    (((handleReceived (fun _ _ => false) ["loc1"] "T0" "HH" "DD" 123 ⟨[], true⟩
        (ParsedMessage.vesselDynamicData 123 true none none)).connection_ok = true) ∧
      ∀ s ∈ ["loc1"],
        ((if (⟨[], true⟩ : LoopState).connection_ok = false then
            (resendMessages (fun _ _ => false) ["loc1"]
              (⟨[], true⟩ : LoopState).store).ok
          else (⟨[], true⟩ : LoopState).connection_ok) = false ∨
          (fun _ _ => false) s "123$GNRMC,HH,A,,,,,,,DD,,,A\r\n" = false) →
          ("T0" ++ "-" ++ s, "123$GNRMC,HH,A,,,,,,,DD,,,A\r\n")
            ∈ (handleReceived (fun _ _ => false) ["loc1"] "T0" "HH" "DD" 123 ⟨[], true⟩
              (ParsedMessage.vesselDynamicData 123 true none none)).store) :=
  ⟨by decide, by decide,
    C3_stored_but_flag_true (fun _ _ => false) ["loc1"] "T0" "HH" "DD" 123 ⟨[], true⟩
      (ParsedMessage.vesselDynamicData 123 true none none)
      "123$GNRMC,HH,A,,,,,,,DD,,,A\r\n" (by decide) (by decide)⟩

end Claims3

section Claims9

open AisForwarder AisForwarder.Location AisForwarder.Dispatcher

/-- C9 (corrected): counterexample to the claim that `format_lat_long`
yields the empty string for an absent value: the source returns a bare
comma (producing two empty NMEA fields), not the empty string. -/
theorem C9_counterexample :
    format_lat_long none true = "," ∧ format_lat_long none true ≠ "" := by
  decide

/-- C9 (corrected, amended): `format_lat_long` yields a bare comma
(not the empty string) when the value is absent, and degrees times 100
plus minutes formatted with five decimals, followed by a comma and the
hemisphere chosen by sign (N/S for latitude, E/W for longitude, the
nonnegative side being N/E), when present; `is_moving` is false whenever
either coordinate is absent. -/
theorem C9_format_lat_long_shape :
    (∀ b : Bool, format_lat_long none b = ",") ∧
    (∀ v : ℚ, format_lat_long (some v) true =
      fmtFixed 5 ((⌊|v|⌋ : ℚ) * 100 + (|v| - (⌊|v|⌋ : ℚ)) * 60) ++ "," ++
        (if v ≥ 0 then "N" else "S")) ∧
    (∀ v : ℚ, format_lat_long (some v) false =
      fmtFixed 5 ((⌊|v|⌋ : ℚ) * 100 + (|v| - (⌊|v|⌋ : ℚ)) * 60) ++ "," ++
        (if v ≥ 0 then "E" else "W")) ∧
    (∀ (lo : Option ℚ) (pla plo : ℚ), is_moving none lo pla plo = false) ∧
    (∀ (la : ℚ) (pla plo : ℚ), is_moving (some la) none pla plo = false) := by
  refine ⟨fun b => rfl, fun v => rfl, fun v => rfl, fun lo pla plo => ?_,
    fun la pla plo => rfl⟩
  cases lo <;> rfl

end Claims9

section Claims7

open AisForwarder AisForwarder.Dispatcher

/-- C7 (corrected): counterexample to the claim that the fragment
accumulator is empty after processing any line whose parse result is not
Incomplete. A decoded message outside the three classified variants
skips the whole classification block, so pending fragments survive. -/
theorem C7_counterexample :
    ((processLine ⟨60, 600, 86400, []⟩ (fun _ _ => true)
        ⟨true, 0, 0, 0, 0, 0, [], ["!AIVDM,frag"]⟩ "line2"
        (ParseOutcome.ok ParsedMessage.other) 0).state.fragments = ["!AIVDM,frag"]) ∧
      (processLine ⟨60, 600, 86400, []⟩ (fun _ _ => true)
        ⟨true, 0, 0, 0, 0, 0, [], ["!AIVDM,frag"]⟩ "line2"
        (ParseOutcome.ok ParsedMessage.other) 0).state.fragments ≠ [] := by
  decide

/-- C7 (corrected, amended): after a non-aborting step, the fragment
accumulator is empty when the line's parse result was an error or a
decoded message classified as VesselDynamicData, VesselStaticData or Rmc
(whether or not the rate limit passed); after any other (ignored)
decoded message the accumulator is left unchanged, not cleared. -/
theorem C7_fragments_cleared (cfg : Config) (send : String → String → Bool)
    (st : State) (line : String) (outcome : ParseOutcome) (now : Instant)
    (herr : (processLine cfg send st line outcome now).err = false) :
    (outcome = ParseOutcome.err →
      (processLine cfg send st line outcome now).state.fragments = []) ∧
    (∀ m own lat long allow, outcome = ParseOutcome.ok m →
      classify st.allow_ais_for_location m = (some (own, lat, long), allow) →
      (processLine cfg send st line outcome now).state.fragments = []) ∧
    (∀ m allow, outcome = ParseOutcome.ok m → m ≠ ParsedMessage.incomplete →
      classify st.allow_ais_for_location m = (none, allow) →
      (processLine cfg send st line outcome now).state.fragments = st.fragments) := by
  refine ⟨?_, ?_, ?_⟩
  · rintro rfl
    rfl
  · rintro m own lat long allow rfl hcls
    have hinc : m ≠ ParsedMessage.incomplete := by
      rintro rfl
      simp [classify] at hcls
    rw [processLine, if_neg hinc, hcls] at herr ⊢
    simp only at herr ⊢
    split_ifs at herr ⊢ <;> simp_all
  · rintro m allow rfl hinc hcls
    rw [processLine, if_neg hinc, hcls]

/-- Witness for C7's amended claim: a static-data line processed on a
state with one pending fragment clears the accumulator. -/
theorem C7_witness :
    ((processLine ⟨60, 600, 86400, []⟩ (fun _ _ => true)
        ⟨true, 0, 0, 0, 0, 0, [], ["f"]⟩ "l"
        (ParseOutcome.ok (ParsedMessage.vesselStaticData 5 false)) 0).err = false) ∧
    (((ParseOutcome.ok (ParsedMessage.vesselStaticData 5 false)) = ParseOutcome.err →
        (processLine ⟨60, 600, 86400, []⟩ (fun _ _ => true)
          ⟨true, 0, 0, 0, 0, 0, [], ["f"]⟩ "l"
          (ParseOutcome.ok (ParsedMessage.vesselStaticData 5 false)) 0).state.fragments
          = []) ∧
      (∀ m own lat long allow,
        (ParseOutcome.ok (ParsedMessage.vesselStaticData 5 false)) = ParseOutcome.ok m →
        classify (⟨true, 0, 0, 0, 0, 0, [], ["f"]⟩ : State).allow_ais_for_location m
            = (some (own, lat, long), allow) →
        (processLine ⟨60, 600, 86400, []⟩ (fun _ _ => true)
          ⟨true, 0, 0, 0, 0, 0, [], ["f"]⟩ "l"
          (ParseOutcome.ok (ParsedMessage.vesselStaticData 5 false)) 0).state.fragments
          = []) ∧
      (∀ m allow,
        (ParseOutcome.ok (ParsedMessage.vesselStaticData 5 false)) = ParseOutcome.ok m →
        m ≠ ParsedMessage.incomplete →
        classify (⟨true, 0, 0, 0, 0, 0, [], ["f"]⟩ : State).allow_ais_for_location m
            = (none, allow) →
        (processLine ⟨60, 600, 86400, []⟩ (fun _ _ => true)
          ⟨true, 0, 0, 0, 0, 0, [], ["f"]⟩ "l"
          (ParseOutcome.ok (ParsedMessage.vesselStaticData 5 false)) 0).state.fragments
          = (⟨true, 0, 0, 0, 0, 0, [], ["f"]⟩ : State).fragments)) := by
  have herr : (processLine ⟨60, 600, 86400, []⟩ (fun _ _ => true)
      ⟨true, 0, 0, 0, 0, 0, [], ["f"]⟩ "l"
      (ParseOutcome.ok (ParsedMessage.vesselStaticData 5 false)) 0).err = false := by
    have hne : (ParsedMessage.vesselStaticData 5 false) ≠ ParsedMessage.incomplete := by
      decide
    norm_num [processLine, classify, checkLastSent, ratedInterval, durationSinceSecs,
      lookupRow, insertRow, broadcastAis, max_def, hne]
  exact ⟨herr, C7_fragments_cleared ⟨60, 600, 86400, []⟩ (fun _ _ => true)
    ⟨true, 0, 0, 0, 0, 0, [], ["f"]⟩ "l"
    (ParseOutcome.ok (ParsedMessage.vesselStaticData 5 false)) 0 herr⟩

end Claims7

namespace AisForwarder.Dispatcher

/-- Unfolding of `processLine` on a line whose message classifies into
the triple `(own_vessel, lat, long)`. -/
theorem processLine_classified (cfg : Config) (send : String → String → Bool)
    (st : State) (line : String) (m : ParsedMessage) (now : Instant)
    (own : Bool) (lat long : Option ℚ) (allow : Bool)
    (hinc : m ≠ ParsedMessage.incomplete)
    (hcls : classify st.allow_ais_for_location m = (some (own, lat, long), allow)) :
    processLine cfg send st line (ParseOutcome.ok m) now =
      (let fragments := st.fragments ++ [line]
       let check := checkLastSent cfg st.last_sent m now
       let st1 : State := { st with
         allow_ais_for_location := allow
         last_sent := check.2
         fragments := fragments }
       let payload := String.join fragments
       let bc := if check.1 then broadcastAis send payload cfg.aisSinks else ([], true)
       if bc.2 = false then ⟨st1, bc.1, check.1, none, true⟩
       else if own then
         if decide (now ≥ st.next_location_anchor_instant)
             || (decide (now ≥ st.next_location_instant)
                 && is_moving lat long st.prev_lat st.prev_long) then
           ⟨{ st1 with
               prev_lat := lat.getD 0
               prev_long := long.getD 0
               last_sent_location := now
               next_location_instant := nextInstantF cfg.locationInterval now now
               next_location_anchor_instant :=
                 nextInstantF cfg.locationAnchorInterval now now
               fragments := [] },
             bc.1, check.1, some m, false⟩
         else ⟨{ st1 with fragments := [] }, bc.1, check.1, none, false⟩
       else ⟨{ st1 with fragments := [] }, bc.1, check.1, none, false⟩) := by
  rw [processLine, if_neg hinc, hcls]

/-- Evaluation of a non-aborting step on an own-vessel-eligible message:
the location gate alone decides the outcome. -/
theorem processLine_own_no_abort (cfg : Config) (send : String → String → Bool)
    (st : State) (line : String) (m : ParsedMessage) (now : Instant)
    (lat long : Option ℚ) (allow : Bool)
    (hinc : m ≠ ParsedMessage.incomplete)
    (hcls : classify st.allow_ais_for_location m = (some (true, lat, long), allow))
    (herr : (processLine cfg send st line (ParseOutcome.ok m) now).err = false) :
    processLine cfg send st line (ParseOutcome.ok m) now =
      (if decide (now ≥ st.next_location_anchor_instant)
          || (decide (now ≥ st.next_location_instant)
              && is_moving lat long st.prev_lat st.prev_long) then
        ⟨{ st with
            allow_ais_for_location := allow
            last_sent := (checkLastSent cfg st.last_sent m now).2
            prev_lat := lat.getD 0
            prev_long := long.getD 0
            last_sent_location := now
            next_location_instant := nextInstantF cfg.locationInterval now now
            next_location_anchor_instant := nextInstantF cfg.locationAnchorInterval now now
            fragments := [] },
          (if (checkLastSent cfg st.last_sent m now).1 then
            broadcastAis send (String.join (st.fragments ++ [line])) cfg.aisSinks
          else ([], true)).1,
          (checkLastSent cfg st.last_sent m now).1, some m, false⟩
      else
        ⟨{ st with
            allow_ais_for_location := allow
            last_sent := (checkLastSent cfg st.last_sent m now).2
            fragments := [] },
          (if (checkLastSent cfg st.last_sent m now).1 then
            broadcastAis send (String.join (st.fragments ++ [line])) cfg.aisSinks
          else ([], true)).1,
          (checkLastSent cfg st.last_sent m now).1, none, false⟩) := by
  rw [processLine_classified cfg send st line m now true lat long allow hinc hcls]
    at herr ⊢
  simp only [] at herr ⊢
  by_cases hcheck : (checkLastSent cfg st.last_sent m now).1 = true
  · rw [if_pos hcheck] at herr ⊢
    by_cases habort : (broadcastAis send (String.join (st.fragments ++ [line]))
        cfg.aisSinks).2 = false
    · rw [if_pos habort] at herr
      exact absurd herr (by simp)
    · rw [if_neg habort]
      simp only [if_true]
      try rfl
  · rw [if_neg hcheck] at herr ⊢
    simp only [Bool.true_eq_false, if_false, if_true]
    try rfl

theorem broadcastAis_payload (send : String → String → Bool) (payload : String) :
    ∀ sinks : List String, ∀ e ∈ (broadcastAis send payload sinks).1, e.2 = payload := by
  intro sinks
  induction sinks with
  | nil => intro e he; cases he
  | cons s0 rest ih =>
    intro e he
    by_cases h0 : send s0 payload = true
    · rw [broadcastAis, if_pos h0] at he
      rcases List.mem_cons.mp he with rfl | hmem
      · rfl
      · exact ih e hmem
    · rw [broadcastAis, if_neg h0] at he
      cases he

theorem broadcastAis_ok_map (send : String → String → Bool) (payload : String) :
    ∀ sinks : List String, (broadcastAis send payload sinks).2 = true →
      (broadcastAis send payload sinks).1 = sinks.map (fun s => (s, payload)) := by
  intro sinks
  induction sinks with
  | nil => intro _; rfl
  | cons s0 rest ih =>
    intro hok
    by_cases h0 : send s0 payload = true
    · rw [broadcastAis, if_pos h0] at hok ⊢
      rw [List.map_cons]
      exact congrArg _ (ih hok)
    · rw [broadcastAis, if_neg h0] at hok
      exact absurd hok (by simp)

end AisForwarder.Dispatcher

section Claims8

open AisForwarder AisForwarder.Dispatcher

/-- C8 (confirmed): when a rate-limit-passing sentence completes a
fragment sequence, every successful AIS transmission of the step carries
the concatenation of the accumulated raw fragment lines plus the current
line, in arrival order, and when no sink fails the payload reaches every
AIS sink. -/
theorem C8_broadcast_payload (cfg : Config) (send : String → String → Bool)
    (st : State) (line : String) (m : ParsedMessage) (now : Instant)
    (own : Bool) (lat long : Option ℚ) (allow : Bool)
    (hcls : classify st.allow_ais_for_location m = (some (own, lat, long), allow))
    (hinc : m ≠ ParsedMessage.incomplete)
    (hrate : (checkLastSent cfg st.last_sent m now).1 = true) :
    (∀ e ∈ (processLine cfg send st line (ParseOutcome.ok m) now).aisSent,
        e.2 = String.join (st.fragments ++ [line])) ∧
    ((processLine cfg send st line (ParseOutcome.ok m) now).err = false →
      (processLine cfg send st line (ParseOutcome.ok m) now).aisSent
        = cfg.aisSinks.map (fun s => (s, String.join (st.fragments ++ [line])))) := by
  rw [processLine, if_neg hinc, hcls]
  simp only [hrate, if_true]
  constructor
  · intro e he
    split_ifs at he <;>
      exact broadcastAis_payload send (String.join (st.fragments ++ [line]))
        cfg.aisSinks e he
  · intro herr
    split_ifs at herr ⊢ with habort hown hgate
    · have hb : (broadcastAis send (String.join (st.fragments ++ [line]))
          cfg.aisSinks).2 = true := by
        cases hx : (broadcastAis send (String.join (st.fragments ++ [line]))
            cfg.aisSinks).2
        · exact absurd hx habort
        · rfl
      simpa using broadcastAis_ok_map send (String.join (st.fragments ++ [line]))
        cfg.aisSinks hb
    · have hb : (broadcastAis send (String.join (st.fragments ++ [line]))
          cfg.aisSinks).2 = true := by
        cases hx : (broadcastAis send (String.join (st.fragments ++ [line]))
            cfg.aisSinks).2
        · exact absurd hx habort
        · rfl
      simpa using broadcastAis_ok_map send (String.join (st.fragments ++ [line]))
        cfg.aisSinks hb
    · have hb : (broadcastAis send (String.join (st.fragments ++ [line]))
          cfg.aisSinks).2 = true := by
        cases hx : (broadcastAis send (String.join (st.fragments ++ [line]))
            cfg.aisSinks).2
        · exact absurd hx habort
        · rfl
      simpa using broadcastAis_ok_map send (String.join (st.fragments ++ [line]))
        cfg.aisSinks hb

/-- Witness for C8 on the spec's fragment-reassembly scenario: a first
line parsed Incomplete accumulates, and the decoding second line
broadcasts the byte-concatenation of both raw lines to the AIS sink. -/
theorem C8_witness :
    ((processLine ⟨60, 600, 86400, ["ais1"]⟩ (fun _ _ => true)
        ⟨true, 0, 0, 0, 0, 0, [], []⟩ "l1"
        (ParseOutcome.ok ParsedMessage.incomplete) 0).state.fragments = ["l1"]) ∧
    (classify (⟨true, 0, 0, 0, 0, 0, [], ["l1"]⟩ : State).allow_ais_for_location
        (ParsedMessage.vesselDynamicData 9 false none none)
        = (some (false, none, none), true)) ∧
    ((ParsedMessage.vesselDynamicData 9 false none none) ≠ ParsedMessage.incomplete) ∧
    ((checkLastSent ⟨60, 600, 86400, ["ais1"]⟩
        (⟨true, 0, 0, 0, 0, 0, [], ["l1"]⟩ : State).last_sent
        (ParsedMessage.vesselDynamicData 9 false none none) 60).1 = true) ∧
    ((∀ e ∈ (processLine ⟨60, 600, 86400, ["ais1"]⟩ (fun _ _ => true)
          ⟨true, 0, 0, 0, 0, 0, [], ["l1"]⟩ "l2"
          (ParseOutcome.ok (ParsedMessage.vesselDynamicData 9 false none none))
          60).aisSent,
        e.2 = String.join ((⟨true, 0, 0, 0, 0, 0, [], ["l1"]⟩ : State).fragments
          ++ ["l2"])) ∧
      ((processLine ⟨60, 600, 86400, ["ais1"]⟩ (fun _ _ => true)
          ⟨true, 0, 0, 0, 0, 0, [], ["l1"]⟩ "l2"
          (ParseOutcome.ok (ParsedMessage.vesselDynamicData 9 false none none))
          60).err = false →
        (processLine ⟨60, 600, 86400, ["ais1"]⟩ (fun _ _ => true)
          ⟨true, 0, 0, 0, 0, 0, [], ["l1"]⟩ "l2"
          (ParseOutcome.ok (ParsedMessage.vesselDynamicData 9 false none none))
          60).aisSent
          = (⟨60, 600, 86400, ["ais1"]⟩ : Config).aisSinks.map
              (fun s => (s, String.join
                ((⟨true, 0, 0, 0, 0, 0, [], ["l1"]⟩ : State).fragments ++ ["l2"]))))) := by
  refine ⟨by decide, rfl, by decide, ?_, ?_⟩
  · norm_num [checkLastSent, ratedInterval, durationSinceSecs, lookupRow, max_def]
  · exact C8_broadcast_payload ⟨60, 600, 86400, ["ais1"]⟩ (fun _ _ => true)
      ⟨true, 0, 0, 0, 0, 0, [], ["l1"]⟩ "l2"
      (ParsedMessage.vesselDynamicData 9 false none none) 60 false none none true
      rfl (by decide)
      (by norm_num [checkLastSent, ratedInterval, durationSinceSecs, lookupRow, max_def])

end Claims8

section Claims5

open AisForwarder AisForwarder.Dispatcher

/-- C5 (confirmed): for a location-eligible own-vessel message in a
non-aborting step, the handoff to the Location worker fires exactly when
`now` reaches the anchor deadline, or reaches the location deadline with
`is_moving` true; on fire `prev_lat`/`prev_long` and `last_sent_location`
are updated and both deadlines are recomputed; `is_moving` is the
0.001-degree test on either axis and is false when a coordinate is
absent. -/
theorem C5_location_gate (cfg : Config) (send : String → String → Bool)
    (st : State) (line : String) (m : ParsedMessage) (now : Instant)
    (lat long : Option ℚ) (allow : Bool)
    (hcls : classify st.allow_ais_for_location m = (some (true, lat, long), allow))
    (hinc : m ≠ ParsedMessage.incomplete)
    (herr : (processLine cfg send st line (ParseOutcome.ok m) now).err = false) :
    ((processLine cfg send st line (ParseOutcome.ok m) now).locEmit = some m ↔
      (now ≥ st.next_location_anchor_instant ∨
        (now ≥ st.next_location_instant ∧
          is_moving lat long st.prev_lat st.prev_long = true))) ∧
    ((processLine cfg send st line (ParseOutcome.ok m) now).locEmit = some m →
      (processLine cfg send st line (ParseOutcome.ok m) now).state.prev_lat = lat.getD 0 ∧
      (processLine cfg send st line (ParseOutcome.ok m) now).state.prev_long = long.getD 0 ∧
      (processLine cfg send st line (ParseOutcome.ok m) now).state.last_sent_location
        = now ∧
      (processLine cfg send st line (ParseOutcome.ok m) now).state.next_location_instant
        = nextInstantF cfg.locationInterval now now ∧
      (processLine cfg send st line
          (ParseOutcome.ok m) now).state.next_location_anchor_instant
        = nextInstantF cfg.locationAnchorInterval now now) ∧
    (∀ la lo pla plo : ℚ, is_moving (some la) (some lo) pla plo
        = (decide (|la - pla| > 1/1000) || decide (|lo - plo| > 1/1000))) ∧
    (∀ (lo : Option ℚ) (pla plo : ℚ), is_moving none lo pla plo = false) ∧
    (∀ (la : ℚ) (pla plo : ℚ), is_moving (some la) none pla plo = false) := by
  refine ⟨?_, ?_, fun la lo pla plo => rfl,
    fun lo pla plo => by cases lo <;> rfl, fun la pla plo => rfl⟩
  · rw [processLine_own_no_abort cfg send st line m now lat long allow hinc hcls herr]
    by_cases hgate : (decide (now ≥ st.next_location_anchor_instant)
        || (decide (now ≥ st.next_location_instant)
            && is_moving lat long st.prev_lat st.prev_long)) = true
    · rw [if_pos hgate]
      have hcond : now ≥ st.next_location_anchor_instant ∨
          (now ≥ st.next_location_instant ∧
            is_moving lat long st.prev_lat st.prev_long = true) := by
        simpa [Bool.or_eq_true, Bool.and_eq_true, decide_eq_true_eq] using hgate
      exact iff_of_true rfl hcond
    · rw [if_neg hgate]
      have hcond : ¬(now ≥ st.next_location_anchor_instant ∨
          (now ≥ st.next_location_instant ∧
            is_moving lat long st.prev_lat st.prev_long = true)) := by
        simpa [Bool.or_eq_true, Bool.and_eq_true, decide_eq_true_eq] using hgate
      exact iff_of_false (by simp) hcond
  · rw [processLine_own_no_abort cfg send st line m now lat long allow hinc hcls herr]
    by_cases hgate : (decide (now ≥ st.next_location_anchor_instant)
        || (decide (now ≥ st.next_location_instant)
            && is_moving lat long st.prev_lat st.prev_long)) = true
    · rw [if_pos hgate]
      intro _
      exact ⟨rfl, rfl, rfl, rfl, rfl⟩
    · rw [if_neg hgate]
      intro habs
      simp at habs

/-- Witness for C5: an Rmc message at the (reached) location deadline on
a fresh state fires the handoff. -/
theorem C5_witness :
    (classify (⟨true, 0, 0, 0, 0, 0, [], []⟩ : State).allow_ais_for_location
        (ParsedMessage.rmc (some 1) (some 1) none none)
        = (some (true, some 1, some 1), false)) ∧
    ((ParsedMessage.rmc (some 1) (some 1) none none) ≠ ParsedMessage.incomplete) ∧
    ((processLine ⟨60, 600, 86400, []⟩ (fun _ _ => true) ⟨true, 0, 0, 0, 0, 0, [], []⟩
        "r" (ParseOutcome.ok (ParsedMessage.rmc (some 1) (some 1) none none)) 0).err
      = false) ∧
    (((processLine ⟨60, 600, 86400, []⟩ (fun _ _ => true) ⟨true, 0, 0, 0, 0, 0, [], []⟩
        "r" (ParseOutcome.ok (ParsedMessage.rmc (some 1) (some 1) none none)) 0).locEmit
        = some (ParsedMessage.rmc (some 1) (some 1) none none) ↔
      ((0 : ℚ) ≥ (⟨true, 0, 0, 0, 0, 0, [], []⟩ : State).next_location_anchor_instant ∨
        ((0 : ℚ) ≥ (⟨true, 0, 0, 0, 0, 0, [], []⟩ : State).next_location_instant ∧
          is_moving (some 1) (some 1)
            (⟨true, 0, 0, 0, 0, 0, [], []⟩ : State).prev_lat
            (⟨true, 0, 0, 0, 0, 0, [], []⟩ : State).prev_long = true))) ∧
      ((processLine ⟨60, 600, 86400, []⟩ (fun _ _ => true) ⟨true, 0, 0, 0, 0, 0, [], []⟩
          "r" (ParseOutcome.ok (ParsedMessage.rmc (some 1) (some 1) none none)) 0).locEmit
          = some (ParsedMessage.rmc (some 1) (some 1) none none) →
        (processLine ⟨60, 600, 86400, []⟩ (fun _ _ => true) ⟨true, 0, 0, 0, 0, 0, [], []⟩
          "r" (ParseOutcome.ok (ParsedMessage.rmc (some 1) (some 1) none none))
          0).state.prev_lat = (some (1 : ℚ)).getD 0 ∧
        (processLine ⟨60, 600, 86400, []⟩ (fun _ _ => true) ⟨true, 0, 0, 0, 0, 0, [], []⟩
          "r" (ParseOutcome.ok (ParsedMessage.rmc (some 1) (some 1) none none))
          0).state.prev_long = (some (1 : ℚ)).getD 0 ∧
        (processLine ⟨60, 600, 86400, []⟩ (fun _ _ => true) ⟨true, 0, 0, 0, 0, 0, [], []⟩
          "r" (ParseOutcome.ok (ParsedMessage.rmc (some 1) (some 1) none none))
          0).state.last_sent_location = 0 ∧
        (processLine ⟨60, 600, 86400, []⟩ (fun _ _ => true) ⟨true, 0, 0, 0, 0, 0, [], []⟩
          "r" (ParseOutcome.ok (ParsedMessage.rmc (some 1) (some 1) none none))
          0).state.next_location_instant
          = nextInstantF (⟨60, 600, 86400, []⟩ : Config).locationInterval 0 0 ∧
        (processLine ⟨60, 600, 86400, []⟩ (fun _ _ => true) ⟨true, 0, 0, 0, 0, 0, [], []⟩
          "r" (ParseOutcome.ok (ParsedMessage.rmc (some 1) (some 1) none none))
          0).state.next_location_anchor_instant
          = nextInstantF (⟨60, 600, 86400, []⟩ : Config).locationAnchorInterval 0 0) ∧
      (∀ la lo pla plo : ℚ, is_moving (some la) (some lo) pla plo
          = (decide (|la - pla| > 1/1000) || decide (|lo - plo| > 1/1000))) ∧
      (∀ (lo : Option ℚ) (pla plo : ℚ), is_moving none lo pla plo = false) ∧
      (∀ (la : ℚ) (pla plo : ℚ), is_moving (some la) none pla plo = false)) := by
  have hne : (ParsedMessage.rmc (some 1) (some 1) none none)
      ≠ ParsedMessage.incomplete := by decide
  have herr : (processLine ⟨60, 600, 86400, []⟩ (fun _ _ => true)
      ⟨true, 0, 0, 0, 0, 0, [], []⟩ "r"
      (ParseOutcome.ok (ParsedMessage.rmc (some 1) (some 1) none none)) 0).err
      = false := by
    norm_num [processLine, classify, checkLastSent, broadcastAis, is_moving, hne]
  exact ⟨rfl, hne, herr,
    C5_location_gate ⟨60, 600, 86400, []⟩ (fun _ _ => true) ⟨true, 0, 0, 0, 0, 0, [], []⟩
      "r" (ParsedMessage.rmc (some 1) (some 1) none none) 0 (some 1) (some 1) false
      rfl hne herr⟩

end Claims5

namespace AisForwarder.Dispatcher

theorem classify_false_snd (m : ParsedMessage) : (classify false m).2 = false := by
  cases m <;> rfl

theorem rmc_ne_incomplete (a b c d : Option ℚ) :
    ParsedMessage.rmc a b c d ≠ ParsedMessage.incomplete :=
  fun h => ParsedMessage.noConfusion h

theorem dyn_ne_incomplete (mmsi : Nat) (own : Bool) (a b : Option ℚ) :
    ParsedMessage.vesselDynamicData mmsi own a b ≠ ParsedMessage.incomplete :=
  fun h => ParsedMessage.noConfusion h

theorem static_ne_incomplete (mmsi : Nat) (own : Bool) :
    ParsedMessage.vesselStaticData mmsi own ≠ ParsedMessage.incomplete :=
  fun h => ParsedMessage.noConfusion h

theorem processLine_allow_false (cfg : Config) (send : String → String → Bool)
    (st : State) (line : String) (outcome : ParseOutcome) (now : Instant)
    (h : st.allow_ais_for_location = false) :
    (processLine cfg send st line outcome now).state.allow_ais_for_location = false := by
  cases outcome with
  | err => simpa [processLine] using h
  | ok m =>
    by_cases hm : m = ParsedMessage.incomplete
    · subst hm
      simpa [processLine] using h
    · rcases hcls : classify st.allow_ais_for_location m with ⟨o, allow2⟩
      rw [h] at hcls
      have hallow2 : allow2 = false := by
        have h2 := congrArg Prod.snd hcls
        rw [classify_false_snd m] at h2
        exact h2.symm
      rw [← h] at hcls
      cases o with
      | none =>
        rw [processLine, if_neg hm, hcls]
        simpa using hallow2
      | some tr =>
        obtain ⟨own, lat, long⟩ := tr
        rw [processLine_classified cfg send st line m now own lat long allow2 hm hcls]
        simp only []
        split_ifs <;> simpa using hallow2

theorem processLine_rmc_allow (cfg : Config) (send : String → String → Bool)
    (st : State) (line : String) (now : Instant) (la lo so be : Option ℚ) :
    (processLine cfg send st line
        (ParseOutcome.ok (ParsedMessage.rmc la lo so be)) now).state.allow_ais_for_location
      = false := by
  have hinc : (ParsedMessage.rmc la lo so be) ≠ ParsedMessage.incomplete := by
    intro h
    exact ParsedMessage.noConfusion h
  have hcls : classify st.allow_ais_for_location (ParsedMessage.rmc la lo so be)
      = (some (true, la, lo), false) := rfl
  rw [processLine_classified cfg send st line (ParsedMessage.rmc la lo so be) now
    true la lo false hinc hcls]
  simp only []
  split_ifs <;> rfl

theorem processLine_dyn_noemit (cfg : Config) (send : String → String → Bool)
    (st : State) (line : String) (now : Instant) (mmsi : Nat) (own : Bool)
    (la lo : Option ℚ) (h : st.allow_ais_for_location = false) :
    (processLine cfg send st line
        (ParseOutcome.ok (ParsedMessage.vesselDynamicData mmsi own la lo)) now).locEmit
      = none := by
  have hinc : (ParsedMessage.vesselDynamicData mmsi own la lo)
      ≠ ParsedMessage.incomplete := by
    intro hx
    exact ParsedMessage.noConfusion hx
  have hcls : classify st.allow_ais_for_location
      (ParsedMessage.vesselDynamicData mmsi own la lo)
      = (some (false, la, lo), st.allow_ais_for_location) := by
    rw [h]
    rfl
  rw [processLine_classified cfg send st line
    (ParsedMessage.vesselDynamicData mmsi own la lo) now false la lo
    st.allow_ais_for_location hinc hcls]
  simp only []
  split_ifs <;> simp_all

theorem runLines_allow_false (cfg : Config) (send : String → String → Bool) :
    ∀ (lis : List LineIn) (st : State), st.allow_ais_for_location = false →
      ∀ ev ∈ (runLines cfg send st lis).events,
        ∀ mmsi own la lo,
          ev.outcome = ParseOutcome.ok (ParsedMessage.vesselDynamicData mmsi own la lo) →
            ev.locEmit = none := by
  intro lis
  induction lis with
  | nil => intro st h ev hev; cases hev
  | cons li rest ih =>
    intro st h ev hev mmsi own la lo hout
    rw [runLines] at hev
    simp only [] at hev
    by_cases herr2 : (processLine cfg send st li.line li.outcome li.now).err = true
    · rw [if_pos herr2] at hev
      have hev2 := List.mem_singleton.mp hev
      subst hev2
      simp only [] at hout
      rw [hout]
      exact processLine_dyn_noemit cfg send st li.line li.now mmsi own la lo h
    · rw [if_neg herr2] at hev
      rcases List.mem_cons.mp hev with hev2 | hev2
      · subst hev2
        simp only [] at hout
        rw [hout]
        exact processLine_dyn_noemit cfg send st li.line li.now mmsi own la lo h
      · exact ih (processLine cfg send st li.line li.outcome li.now).state
          (processLine_allow_false cfg send st li.line li.outcome li.now h)
          ev hev2 mmsi own la lo hout

end AisForwarder.Dispatcher

section Claims4

open AisForwarder AisForwarder.Dispatcher

/-- C4 (corrected): counterexample to the claim that the Rmc latch lasts
for the remainder of the process lifetime including across Dispatcher
rebuilds. A first work invocation classifies an Rmc (and emits it); after
the rebuild, a fresh Dispatcher (as `main`'s loop constructs on every
iteration) processes an own-vessel VesselDynamicData and DOES emit it on
the handoff channel, because `allow_ais_for_location` is a local of
`work` reset to true. -/
theorem C4_counterexample :
    ((runLines ⟨60, 600, 86400, []⟩ (fun _ _ => true)
        (initState ⟨60, 600, 86400, []⟩ 0 0)
        [⟨"r", ParseOutcome.ok (ParsedMessage.rmc (some 1) (some 1) none none), 0⟩]).events.map
          Event.locEmit
      = [some (ParsedMessage.rmc (some 1) (some 1) none none)]) ∧
    ((runLines ⟨60, 600, 86400, []⟩ (fun _ _ => true)
        (initState ⟨60, 600, 86400, []⟩ 1000 1000)
        [⟨"d", ParseOutcome.ok (ParsedMessage.vesselDynamicData 7 true (some 1) (some 1)),
          1000⟩]).events.map Event.locEmit
      = [some (ParsedMessage.vesselDynamicData 7 true (some 1) (some 1))]) := by
  have hne1 : (ParsedMessage.rmc (some 1) (some 1) none none)
      ≠ ParsedMessage.incomplete := by decide
  have hne2 : (ParsedMessage.vesselDynamicData 7 true (some 1) (some 1))
      ≠ ParsedMessage.incomplete := by decide
  constructor
  · norm_num [runLines, processLine, initState, classify, checkLastSent, ratedInterval,
      durationSinceSecs, lookupRow, insertRow, broadcastAis, is_moving, nextInstantF,
      max_def, hne1]
  · norm_num [runLines, processLine, initState, classify, checkLastSent, ratedInterval,
      durationSinceSecs, lookupRow, insertRow, broadcastAis, is_moving, nextInstantF,
      max_def, hne2]

/-- C4 (corrected, amended): within a single `work` invocation, once an
Rmc sentence has been classified, every later line whose message is a
VesselDynamicData (own-vessel or not) produces no location emission; the
latch is a local of `work`, so a Dispatcher rebuild resets it. -/
theorem C4_rmc_latch_single_run (cfg : Config) (send : String → String → Bool)
    (st : State) (line : String) (la lo so be : Option ℚ) (rt : Instant)
    (post : List LineIn) :
    ∀ ev ∈ (runLines cfg send st
        (⟨line, ParseOutcome.ok (ParsedMessage.rmc la lo so be), rt⟩ :: post)).events.tail,
      ∀ mmsi own la2 lo2,
        ev.outcome = ParseOutcome.ok (ParsedMessage.vesselDynamicData mmsi own la2 lo2) →
          ev.locEmit = none := by
  intro ev hev mmsi own la2 lo2 hout
  rw [runLines] at hev
  simp only [] at hev
  by_cases herr2 : (processLine cfg send st line
      (ParseOutcome.ok (ParsedMessage.rmc la lo so be)) rt).err = true
  · rw [if_pos herr2] at hev
    simp at hev
  · rw [if_neg herr2] at hev
    simp only [List.tail_cons] at hev
    exact runLines_allow_false cfg send post _
      (processLine_rmc_allow cfg send st line rt la lo so be) ev hev mmsi own la2 lo2 hout

/-- Witness for C4's amended claim: after an Rmc at the head of a run,
the following own-vessel VesselDynamicData line is not emitted. -/
theorem C4_witness :
    ((⟨ParseOutcome.ok (ParsedMessage.vesselDynamicData 7 true (some 1) (some 1)),
        true, none⟩ : Event) ∈
      (runLines ⟨60, 600, 86400, []⟩ (fun _ _ => true)
        (initState ⟨60, 600, 86400, []⟩ 0 0)
        (⟨"r", ParseOutcome.ok (ParsedMessage.rmc (some 1) (some 1) none none), 0⟩ ::
          [⟨"d", ParseOutcome.ok (ParsedMessage.vesselDynamicData 7 true (some 1) (some 1)),
            1000⟩])).events.tail) ∧
    (∀ mmsi own la2 lo2,
      (⟨ParseOutcome.ok (ParsedMessage.vesselDynamicData 7 true (some 1) (some 1)),
          true, none⟩ : Event).outcome
        = ParseOutcome.ok (ParsedMessage.vesselDynamicData mmsi own la2 lo2) →
      (⟨ParseOutcome.ok (ParsedMessage.vesselDynamicData 7 true (some 1) (some 1)),
          true, none⟩ : Event).locEmit = none) := by
  have hne1 : (ParsedMessage.rmc (some 1) (some 1) none none)
      ≠ ParsedMessage.incomplete := by decide
  have hne2 : (ParsedMessage.vesselDynamicData 7 true (some 1) (some 1))
      ≠ ParsedMessage.incomplete := by decide
  have hmem : (⟨ParseOutcome.ok (ParsedMessage.vesselDynamicData 7 true (some 1) (some 1)),
      true, none⟩ : Event) ∈
      (runLines ⟨60, 600, 86400, []⟩ (fun _ _ => true)
        (initState ⟨60, 600, 86400, []⟩ 0 0)
        (⟨"r", ParseOutcome.ok (ParsedMessage.rmc (some 1) (some 1) none none), 0⟩ ::
          [⟨"d", ParseOutcome.ok (ParsedMessage.vesselDynamicData 7 true (some 1) (some 1)),
            1000⟩])).events.tail := by
    norm_num [runLines, processLine, initState, classify, checkLastSent, ratedInterval,
      durationSinceSecs, lookupRow, insertRow, broadcastAis, is_moving, nextInstantF,
      max_def, hne1, hne2]
  exact ⟨hmem, C4_rmc_latch_single_run ⟨60, 600, 86400, []⟩ (fun _ _ => true)
    (initState ⟨60, 600, 86400, []⟩ 0 0) "r" (some 1) (some 1) none none 0
    [⟨"d", ParseOutcome.ok (ParsedMessage.vesselDynamicData 7 true (some 1) (some 1)),
      1000⟩]
    ⟨ParseOutcome.ok (ParsedMessage.vesselDynamicData 7 true (some 1) (some 1)),
      true, none⟩ hmem⟩

end Claims4

section Claims10

open AisForwarder AisForwarder.Dispatcher

/-- C10 (corrected): counterexample to "a vessel whose position stays
within 0.001 degrees of (0, 0) never satisfies the motion gate and is
emitted only at anchor deadlines". With `location_anchor_interval = 700`,
a first position at latitude -0.001 is emitted at the anchor deadline
(t = 100) and updates `prev_lat`; a second position at latitude 0.0009 is
then emitted at t = 700 through the MOTION gate, before the next anchor
deadline at t = 800, although every coordinate stays within 0.001 of the
origin. -/
theorem C10_counterexample :
    ((runLines ⟨60, 600, 700, []⟩ (fun _ _ => true)
        (initState ⟨60, 600, 700, []⟩ 0 0)
        [⟨"r1", ParseOutcome.ok (ParsedMessage.rmc (some (-1/1000)) (some 0) none none),
          100⟩,
         ⟨"r2", ParseOutcome.ok (ParsedMessage.rmc (some (9/10000)) (some 0) none none),
          700⟩]).events.map Event.locEmit
      = [some (ParsedMessage.rmc (some (-1/1000)) (some 0) none none),
         some (ParsedMessage.rmc (some (9/10000)) (some 0) none none)]) ∧
    ((runLines ⟨60, 600, 700, []⟩ (fun _ _ => true)
        (initState ⟨60, 600, 700, []⟩ 0 0)
        [⟨"r1", ParseOutcome.ok (ParsedMessage.rmc (some (-1/1000)) (some 0) none none),
          100⟩]).state.next_location_anchor_instant = 800) ∧
    ((700 : ℚ) < 800) ∧
    (|(-1 : ℚ)/1000| ≤ 1/1000 ∧ |(9 : ℚ)/10000| ≤ 1/1000 ∧ |(0 : ℚ)| ≤ 1/1000) := by
  refine ⟨?_, ?_, by norm_num, ?_⟩
  · norm_num [runLines, processLine, initState, classify, checkLastSent, ratedInterval,
      durationSinceSecs, lookupRow, insertRow, broadcastAis, is_moving, nextInstantF,
      max_def, rmc_ne_incomplete, abs_of_nonneg, abs_of_nonpos]
  · norm_num [runLines, processLine, initState, classify, checkLastSent, ratedInterval,
      durationSinceSecs, lookupRow, insertRow, broadcastAis, is_moving, nextInstantF,
      max_def, rmc_ne_incomplete, abs_of_nonneg, abs_of_nonpos]
  · refine ⟨?_, ?_, ?_⟩ <;> rw [abs_le] <;> constructor <;> norm_num

/-- C10 (corrected, amended): at the start of every work loop `prev_lat`
and `prev_long` are 0 and `last_sent_location` is seeded one
`location_interval` in the past, so a first location-eligible own-vessel
position with both coordinates present is emitted immediately whenever
its latitude or longitude differs from 0 by more than 0.001 degrees; and
the motion gate never passes while the position stays within 0.001
degrees of the PREVIOUSLY RECORDED position `(prev_lat, prev_long)` —
which is the origin only until the first emission updates it. -/
theorem C10_first_position_emitted (cfg : Config) (send : String → String → Bool)
    (t0 tw now : Instant) (line : String) (m : ParsedMessage)
    (lat long : ℚ) (allow : Bool)
    (h0 : t0 ≤ tw) (h1 : tw ≤ now)
    (hcls : classify (initState cfg t0 tw).allow_ais_for_location m
        = (some (true, some lat, some long), allow))
    (hinc : m ≠ ParsedMessage.incomplete)
    (hmov : |lat| > 1/1000 ∨ |long| > 1/1000)
    (herr : (processLine cfg send (initState cfg t0 tw) line (ParseOutcome.ok m) now).err
        = false) :
    ((initState cfg t0 tw).prev_lat = 0 ∧ (initState cfg t0 tw).prev_long = 0 ∧
      (initState cfg t0 tw).last_sent_location = t0 - (cfg.locationInterval : ℚ)) ∧
    ((processLine cfg send (initState cfg t0 tw) line (ParseOutcome.ok m) now).locEmit
      = some m) ∧
    (∀ la lo pla plo : ℚ, |la - pla| ≤ 1/1000 → |lo - plo| ≤ 1/1000 →
      is_moving (some la) (some lo) pla plo = false) := by
  refine ⟨⟨rfl, rfl, rfl⟩, ?_, ?_⟩
  · rw [processLine_own_no_abort cfg send (initState cfg t0 tw) line m now
      (some lat) (some long) allow hinc hcls herr]
    have helapsed : (cfg.locationInterval : ℤ)
        ≤ durationSinceSecs tw (t0 - (cfg.locationInterval : ℚ)) := by
      rw [durationSinceSecs]
      rw [max_eq_left (by linarith)]
      exact Int.le_floor.mpr (by push_cast; linarith)
    have hnext : (initState cfg t0 tw).next_location_instant = tw := by
      show nextInstantF cfg.locationInterval (t0 - (cfg.locationInterval : ℚ)) tw = tw
      rw [nextInstantF]
      rw [if_neg (not_lt.mpr helapsed)]
      norm_num
    have hmv : is_moving (some lat) (some long) (initState cfg t0 tw).prev_lat
        (initState cfg t0 tw).prev_long = true := by
      show is_moving (some lat) (some long) 0 0 = true
      rw [is_moving, sub_zero, sub_zero]
      rcases hmov with hm | hm
      · rw [decide_eq_true hm]
        rfl
      · rw [decide_eq_true hm, Bool.or_true]
    have hgate : (decide (now ≥ (initState cfg t0 tw).next_location_anchor_instant)
        || (decide (now ≥ (initState cfg t0 tw).next_location_instant)
            && is_moving (some lat) (some long) (initState cfg t0 tw).prev_lat
              (initState cfg t0 tw).prev_long)) = true := by
      rw [hmv, decide_eq_true (show now ≥ (initState cfg t0 tw).next_location_instant by
        rw [hnext]; exact h1)]
      simp
    rw [if_pos hgate]
  · intro la lo pla plo hla hlo
    rw [is_moving]
    rw [decide_eq_false (not_lt.mpr hla), decide_eq_false (not_lt.mpr hlo)]
    rfl

/-- Witness for C10's amended claim: the first own-vessel position (1, 1)
on a fresh Dispatcher is emitted at once. -/
theorem C10_witness :
    ((0 : ℚ) ≤ 0) ∧ ((0 : ℚ) ≤ 0) ∧
    (classify (initState ⟨60, 600, 86400, []⟩ 0 0).allow_ais_for_location
        (ParsedMessage.rmc (some 1) (some 1) none none)
        = (some (true, some 1, some 1), false)) ∧
    ((ParsedMessage.rmc (some 1) (some 1) none none) ≠ ParsedMessage.incomplete) ∧
    (|(1 : ℚ)| > 1/1000 ∨ |(1 : ℚ)| > 1/1000) ∧
    ((processLine ⟨60, 600, 86400, []⟩ (fun _ _ => true)
        (initState ⟨60, 600, 86400, []⟩ 0 0) "r"
        (ParseOutcome.ok (ParsedMessage.rmc (some 1) (some 1) none none)) 0).err
      = false) ∧
    (((initState ⟨60, 600, 86400, []⟩ 0 0).prev_lat = 0 ∧
        (initState ⟨60, 600, 86400, []⟩ 0 0).prev_long = 0 ∧
        (initState ⟨60, 600, 86400, []⟩ 0 0).last_sent_location
          = 0 - ((⟨60, 600, 86400, []⟩ : Config).locationInterval : ℚ)) ∧
      ((processLine ⟨60, 600, 86400, []⟩ (fun _ _ => true)
          (initState ⟨60, 600, 86400, []⟩ 0 0) "r"
          (ParseOutcome.ok (ParsedMessage.rmc (some 1) (some 1) none none)) 0).locEmit
        = some (ParsedMessage.rmc (some 1) (some 1) none none)) ∧
      (∀ la lo pla plo : ℚ, |la - pla| ≤ 1/1000 → |lo - plo| ≤ 1/1000 →
        is_moving (some la) (some lo) pla plo = false)) := by
  have hne : (ParsedMessage.rmc (some 1) (some 1) none none)
      ≠ ParsedMessage.incomplete := by decide
  have hmov : |(1 : ℚ)| > 1/1000 ∨ |(1 : ℚ)| > 1/1000 := by
    left
    rw [abs_one]
    norm_num
  have herr : (processLine ⟨60, 600, 86400, []⟩ (fun _ _ => true)
      (initState ⟨60, 600, 86400, []⟩ 0 0) "r"
      (ParseOutcome.ok (ParsedMessage.rmc (some 1) (some 1) none none)) 0).err
      = false := by
    norm_num [processLine, initState, classify, checkLastSent, broadcastAis, is_moving,
      nextInstantF, durationSinceSecs, max_def, hne]
  exact ⟨le_refl 0, le_refl 0, rfl, hne, hmov, herr,
    C10_first_position_emitted ⟨60, 600, 86400, []⟩ (fun _ _ => true) 0 0 0 "r"
      (ParsedMessage.rmc (some 1) (some 1) none none) 1 1 false (le_refl 0) (le_refl 0)
      rfl hne hmov herr⟩

end Claims10

namespace AisForwarder.Dispatcher

theorem lookupRow_insertRow (t : LastSentTable) (m : Nat) (r : LastSentRow) (m' : Nat) :
    lookupRow (insertRow t m r) m' = if m' = m then some r else lookupRow t m' := by
  induction t with
  | nil =>
    simp only [insertRow, lookupRow]
    by_cases h : m = m'
    · subst h
      simp
    · rw [if_neg h, if_neg (fun hh => h hh.symm)]
  | cons hd rest ih =>
    obtain ⟨k, v⟩ := hd
    simp only [insertRow]
    by_cases hk : k = m
    · subst hk
      simp only [if_pos rfl, lookupRow]
      by_cases h2 : k = m'
      · subst h2
        simp
      · rw [if_neg h2, if_neg h2, if_neg (fun hh => h2 hh.symm)]
    · rw [if_neg hk]
      simp only [lookupRow]
      rw [ih]
      by_cases h2 : k = m'
      · subst h2
        rw [if_pos rfl, if_pos rfl, if_neg hk]
      · rw [if_neg h2, if_neg h2]

theorem lookupField_insertRow (t : LastSentTable) (m : Nat) (r : LastSentRow)
    (k : Nat × Bool) :
    lookupField (insertRow t m r) k
      = if k.1 = m then some (fieldTime r k.2) else lookupField t k := by
  rw [lookupField, lookupRow_insertRow]
  by_cases h : k.1 = m
  · rw [if_pos h, if_pos h]
    rfl
  · rw [if_neg h, if_neg h]
    rfl

theorem checkLastSent_accept_gap (cfg : Config) (table : LastSentTable)
    (m : ParsedMessage) (now : Instant) (k : Nat × Bool) (t : Instant)
    (hkey : msgKey m = some k) (hfield : lookupField table k = some t)
    (hacc : (checkLastSent cfg table m now).1 = true) :
    (msgRatedInterval cfg m : ℤ) ≤ durationSinceSecs now t := by
  cases m with
  | vesselDynamicData mmsi own la lo =>
    rw [msgKey] at hkey
    injection hkey with hkey
    subst hkey
    rw [lookupField] at hfield
    rcases hrow : lookupRow table mmsi with _ | row
    · rw [hrow] at hfield
      simp at hfield
    · rw [hrow] at hfield
      have hfield2 : row.vesselDynamicData = t := by
        simpa [fieldTime] using hfield
      rw [checkLastSent, hrow] at hacc
      simp only [Option.getD_some] at hacc
      by_cases hcond : durationSinceSecs now row.vesselDynamicData
          ≥ (ratedInterval cfg own : ℤ)
      · rw [msgRatedInterval]
        rw [← hfield2]
        exact hcond
      · rw [if_neg hcond] at hacc
        simp at hacc
  | vesselStaticData mmsi own =>
    rw [msgKey] at hkey
    injection hkey with hkey
    subst hkey
    rw [lookupField] at hfield
    rcases hrow : lookupRow table mmsi with _ | row
    · rw [hrow] at hfield
      simp at hfield
    · rw [hrow] at hfield
      have hfield2 : row.vesselStaticData = t := by
        simpa [fieldTime] using hfield
      rw [checkLastSent, hrow] at hacc
      simp only [Option.getD_some] at hacc
      by_cases hcond : durationSinceSecs now row.vesselStaticData
          ≥ (ratedInterval cfg own : ℤ)
      · rw [msgRatedInterval]
        rw [← hfield2]
        exact hcond
      · rw [if_neg hcond] at hacc
        simp at hacc
  | rmc la lo so be => simp [msgKey] at hkey
  | incomplete => simp [msgKey] at hkey
  | other => simp [msgKey] at hkey

theorem checkLastSent_dyn_eq (cfg : Config) (table : LastSentTable) (mmsi : Nat)
    (own : Bool) (la lo : Option ℚ) (now : Instant) :
    checkLastSent cfg table (ParsedMessage.vesselDynamicData mmsi own la lo) now =
      (if durationSinceSecs now ((lookupRow table mmsi).getD
            ⟨now - (ratedInterval cfg own : ℚ), now - (ratedInterval cfg own : ℚ)⟩).vesselDynamicData
          ≥ (ratedInterval cfg own : ℤ) then
        (true, insertRow
          (insertRow table mmsi ((lookupRow table mmsi).getD
            ⟨now - (ratedInterval cfg own : ℚ), now - (ratedInterval cfg own : ℚ)⟩))
          mmsi
          { (lookupRow table mmsi).getD
              ⟨now - (ratedInterval cfg own : ℚ), now - (ratedInterval cfg own : ℚ)⟩ with
            vesselDynamicData := now })
      else (false, insertRow table mmsi ((lookupRow table mmsi).getD
        ⟨now - (ratedInterval cfg own : ℚ), now - (ratedInterval cfg own : ℚ)⟩))) := rfl

theorem checkLastSent_static_eq (cfg : Config) (table : LastSentTable) (mmsi : Nat)
    (own : Bool) (now : Instant) :
    checkLastSent cfg table (ParsedMessage.vesselStaticData mmsi own) now =
      (if durationSinceSecs now ((lookupRow table mmsi).getD
            ⟨now - (ratedInterval cfg own : ℚ), now - (ratedInterval cfg own : ℚ)⟩).vesselStaticData
          ≥ (ratedInterval cfg own : ℤ) then
        (true, insertRow
          (insertRow table mmsi ((lookupRow table mmsi).getD
            ⟨now - (ratedInterval cfg own : ℚ), now - (ratedInterval cfg own : ℚ)⟩))
          mmsi
          { (lookupRow table mmsi).getD
              ⟨now - (ratedInterval cfg own : ℚ), now - (ratedInterval cfg own : ℚ)⟩ with
            vesselStaticData := now })
      else (false, insertRow table mmsi ((lookupRow table mmsi).getD
        ⟨now - (ratedInterval cfg own : ℚ), now - (ratedInterval cfg own : ℚ)⟩))) := rfl

theorem checkLastSent_accept_sets (cfg : Config) (table : LastSentTable)
    (m : ParsedMessage) (now : Instant) (k : Nat × Bool)
    (hkey : msgKey m = some k)
    (hacc : (checkLastSent cfg table m now).1 = true) :
    lookupField (checkLastSent cfg table m now).2 k = some now := by
  cases m with
  | vesselDynamicData mmsi own la lo =>
    rw [msgKey] at hkey
    injection hkey with hkey
    subst hkey
    rw [checkLastSent_dyn_eq] at hacc ⊢
    by_cases hcond : durationSinceSecs now ((lookupRow table mmsi).getD
          ⟨now - (ratedInterval cfg own : ℚ), now - (ratedInterval cfg own : ℚ)⟩).vesselDynamicData
        ≥ (ratedInterval cfg own : ℤ)
    · rw [if_pos hcond]
      rw [lookupField_insertRow]
      simp [fieldTime]
    · rw [if_neg hcond] at hacc
      simp at hacc
  | vesselStaticData mmsi own =>
    rw [msgKey] at hkey
    injection hkey with hkey
    subst hkey
    rw [checkLastSent_static_eq] at hacc ⊢
    by_cases hcond : durationSinceSecs now ((lookupRow table mmsi).getD
          ⟨now - (ratedInterval cfg own : ℚ), now - (ratedInterval cfg own : ℚ)⟩).vesselStaticData
        ≥ (ratedInterval cfg own : ℤ)
    · rw [if_pos hcond]
      rw [lookupField_insertRow]
      simp [fieldTime]
    · rw [if_neg hcond] at hacc
      simp at hacc
  | rmc la lo so be => simp [msgKey] at hkey
  | incomplete => simp [msgKey] at hkey
  | other => simp [msgKey] at hkey

theorem checkLastSent_preserve (cfg : Config) (table : LastSentTable)
    (m : ParsedMessage) (now : Instant) (k : Nat × Bool) (t : Instant)
    (hfield : lookupField table k = some t)
    (hnot : ¬((checkLastSent cfg table m now).1 = true ∧ msgKey m = some k)) :
    lookupField (checkLastSent cfg table m now).2 k = some t := by
  cases m with
  | vesselDynamicData mmsi own la lo =>
    rw [checkLastSent_dyn_eq]
    by_cases hmm : k.1 = mmsi
    · have hrow0 : ∃ row0, lookupRow table k.1 = some row0 ∧ fieldTime row0 k.2 = t := by
        rw [lookupField] at hfield
        rcases hr : lookupRow table k.1 with _ | row0
        · rw [hr] at hfield
          simp at hfield
        · rw [hr] at hfield
          exact ⟨row0, rfl, by simpa using hfield⟩
      obtain ⟨row0, hr, hft⟩ := hrow0
      rw [hmm] at hr
      rw [hr]
      simp only [Option.getD_some]
      by_cases hcond : durationSinceSecs now row0.vesselDynamicData
          ≥ (ratedInterval cfg own : ℤ)
      · rw [if_pos hcond]
        have hk2 : k.2 = false := by
          by_contra hk2
          rw [Bool.not_eq_false] at hk2
          apply hnot
          constructor
          · rw [checkLastSent_dyn_eq, hr]
            simp only [Option.getD_some]
            rw [if_pos hcond]
          · rw [msgKey, ← hmm, ← hk2]
        rw [lookupField_insertRow, if_pos hmm]
        rw [← hft, hk2]
        rfl
      · rw [if_neg hcond]
        rw [lookupField_insertRow, if_pos hmm, ← hft]
    · by_cases hcond : durationSinceSecs now ((lookupRow table mmsi).getD
          ⟨now - (ratedInterval cfg own : ℚ), now - (ratedInterval cfg own : ℚ)⟩).vesselDynamicData
        ≥ (ratedInterval cfg own : ℤ)
      · rw [if_pos hcond]
        rw [lookupField_insertRow, if_neg hmm, lookupField_insertRow, if_neg hmm]
        exact hfield
      · rw [if_neg hcond]
        rw [lookupField_insertRow, if_neg hmm]
        exact hfield
  | vesselStaticData mmsi own =>
    rw [checkLastSent_static_eq]
    by_cases hmm : k.1 = mmsi
    · have hrow0 : ∃ row0, lookupRow table k.1 = some row0 ∧ fieldTime row0 k.2 = t := by
        rw [lookupField] at hfield
        rcases hr : lookupRow table k.1 with _ | row0
        · rw [hr] at hfield
          simp at hfield
        · rw [hr] at hfield
          exact ⟨row0, rfl, by simpa using hfield⟩
      obtain ⟨row0, hr, hft⟩ := hrow0
      rw [hmm] at hr
      rw [hr]
      simp only [Option.getD_some]
      by_cases hcond : durationSinceSecs now row0.vesselStaticData
          ≥ (ratedInterval cfg own : ℤ)
      · rw [if_pos hcond]
        have hk2 : k.2 = true := by
          by_contra hk2
          rw [Bool.not_eq_true] at hk2
          apply hnot
          constructor
          · rw [checkLastSent_static_eq, hr]
            simp only [Option.getD_some]
            rw [if_pos hcond]
          · rw [msgKey, ← hmm, ← hk2]
        rw [lookupField_insertRow, if_pos hmm]
        rw [← hft, hk2]
        rfl
      · rw [if_neg hcond]
        rw [lookupField_insertRow, if_pos hmm, ← hft]
    · by_cases hcond : durationSinceSecs now ((lookupRow table mmsi).getD
          ⟨now - (ratedInterval cfg own : ℚ), now - (ratedInterval cfg own : ℚ)⟩).vesselStaticData
        ≥ (ratedInterval cfg own : ℤ)
      · rw [if_pos hcond]
        rw [lookupField_insertRow, if_neg hmm, lookupField_insertRow, if_neg hmm]
        exact hfield
      · rw [if_neg hcond]
        rw [lookupField_insertRow, if_neg hmm]
        exact hfield
  | rmc la lo so be => exact hfield
  | incomplete => exact hfield
  | other => exact hfield

theorem checkRun_cons (cfg : Config) (table : LastSentTable) (m : ParsedMessage)
    (now : Instant) (rest : List (ParsedMessage × Instant)) :
    checkRun cfg table ((m, now) :: rest) =
      ((checkRun cfg (checkLastSent cfg table m now).2 rest).1,
        ⟨msgKey m, (checkLastSent cfg table m now).1, msgRatedInterval cfg m, now⟩ ::
          (checkRun cfg (checkLastSent cfg table m now).2 rest).2) := rfl

theorem checkRun_times (cfg : Config) :
    ∀ (trace : List (ParsedMessage × Instant)) (table : LastSentTable),
      (checkRun cfg table trace).2.map RateEvent.time = trace.map Prod.snd := by
  intro trace
  induction trace with
  | nil => intro table; rfl
  | cons p rest ih =>
    obtain ⟨m, now⟩ := p
    intro table
    rw [checkRun_cons]
    simp only [List.map_cons]
    rw [ih]

theorem checkRun_gap_from_stored (cfg : Config) (k : Nat × Bool) :
    ∀ (trace : List (ParsedMessage × Instant)) (table : LastSentTable) (t : Instant)
      (ms cs : List RateEvent) (e2 : RateEvent),
      lookupField table k = some t →
      (checkRun cfg table trace).2 = ms ++ e2 :: cs →
      (∀ e ∈ ms, ¬ acceptedFor k e) →
      acceptedFor k e2 →
      (e2.interval : ℤ) ≤ durationSinceSecs e2.time t := by
  intro trace
  induction trace with
  | nil =>
    intro table t ms cs e2 hf hev hms h2
    rw [checkRun] at hev
    cases ms <;> simp at hev
  | cons p rest ih =>
    obtain ⟨m, now⟩ := p
    intro table t ms cs e2 hf hev hms h2
    rw [checkRun_cons] at hev
    simp only [] at hev
    cases ms with
    | nil =>
      simp only [List.nil_append] at hev
      injection hev with hev1 hev2
      obtain ⟨hacc, hkey⟩ := h2
      rw [← hev1] at hacc hkey
      have hgap := checkLastSent_accept_gap cfg table m now k t hkey hf hacc
      rw [← hev1]
      exact hgap
    | cons e ms2 =>
      simp only [List.cons_append] at hev
      injection hev with hev1 hev2
      have hnotacc := hms e (List.mem_cons_self _ _)
      rw [← hev1] at hnotacc
      have hf2 := checkLastSent_preserve cfg table m now k t hf (by
        intro hc
        exact hnotacc ⟨hc.1, hc.2⟩)
      exact ih _ t ms2 cs e2 hf2 hev2 (fun e2x he => hms e2x (List.mem_cons_of_mem _ he)) h2

theorem checkRun_consecutive_gap (cfg : Config) (k : Nat × Bool) :
    ∀ (trace : List (ParsedMessage × Instant)) (table : LastSentTable)
      (bs ms cs : List RateEvent) (e1 e2 : RateEvent),
      (checkRun cfg table trace).2 = bs ++ e1 :: ms ++ e2 :: cs →
      acceptedFor k e1 → acceptedFor k e2 →
      (∀ e ∈ ms, ¬ acceptedFor k e) →
      (e2.interval : ℤ) ≤ durationSinceSecs e2.time e1.time := by
  intro trace
  induction trace with
  | nil =>
    intro table bs ms cs e1 e2 hev _ _ _
    rw [checkRun] at hev
    cases bs <;> simp at hev
  | cons p rest ih =>
    obtain ⟨m, now⟩ := p
    intro table bs ms cs e1 e2 hev h1 h2 hms
    rw [checkRun_cons] at hev
    simp only [] at hev
    cases bs with
    | nil =>
      simp only [List.nil_append] at hev
      injection hev with hev1 hev2
      obtain ⟨hacc, hkey⟩ := h1
      rw [← hev1] at hacc hkey
      have hset := checkLastSent_accept_sets cfg table m now k hkey hacc
      have hres := checkRun_gap_from_stored cfg k rest _ now ms cs e2 hset hev2 hms h2
      rw [← hev1]
      exact hres
    | cons b bs2 =>
      simp only [List.cons_append] at hev
      injection hev with hev1 hev2
      exact ih _ bs2 ms cs e1 e2 hev2 h1 h2 hms

theorem checkLastSent_fresh_accept (cfg : Config) (table : LastSentTable)
    (m : ParsedMessage) (now : Instant) (k2 : Nat × Bool)
    (hkey : msgKey m = some k2) (hrow : lookupRow table k2.1 = none) :
    (checkLastSent cfg table m now).1 = true := by
  cases m with
  | vesselDynamicData mmsi own la lo =>
    rw [msgKey] at hkey
    injection hkey with hkey
    have hm1 : k2.1 = mmsi := by rw [← hkey]
    rw [hm1] at hrow
    rw [checkLastSent_dyn_eq, hrow]
    simp only [Option.getD_none]
    have hdur : durationSinceSecs now (now - (ratedInterval cfg own : ℚ))
        = (ratedInterval cfg own : ℤ) := by
      rw [durationSinceSecs]
      have hx : now - (now - (ratedInterval cfg own : ℚ)) = (ratedInterval cfg own : ℚ) := by
        ring
      rw [hx, max_eq_left (by positivity)]
      exact Int.floor_natCast _
    rw [if_pos (ge_of_eq hdur)]
  | vesselStaticData mmsi own =>
    rw [msgKey] at hkey
    injection hkey with hkey
    have hm1 : k2.1 = mmsi := by rw [← hkey]
    rw [hm1] at hrow
    rw [checkLastSent_static_eq, hrow]
    simp only [Option.getD_none]
    have hdur : durationSinceSecs now (now - (ratedInterval cfg own : ℚ))
        = (ratedInterval cfg own : ℤ) := by
      rw [durationSinceSecs]
      have hx : now - (now - (ratedInterval cfg own : ℚ)) = (ratedInterval cfg own : ℚ) := by
        ring
      rw [hx, max_eq_left (by positivity)]
      exact Int.floor_natCast _
    rw [if_pos (ge_of_eq hdur)]
  | rmc la lo so be => simp [msgKey] at hkey
  | incomplete => simp [msgKey] at hkey
  | other => simp [msgKey] at hkey

end AisForwarder.Dispatcher

section Claims6

open AisForwarder AisForwarder.Dispatcher

/-- C6 (corrected): counterexample to the claim's process-lifetime scope
and unconditional first-message pass. First, `main` rebuilds the
Dispatcher with a fresh `last_sent` table after any I/O error, so two
broadcasts for the same MMSI and field are both accepted only 10 seconds
apart (interval 60) across a rebuild. Second, the row for an MMSI is
seeded with the interval selected by the FIRST message seen for it; after
a non-own dynamic message (interval 60) at t=1000, the first static
message with own_vessel=true (interval 600) at t=1001 is rejected, so the
first observed message for (M, static) does not always pass. -/
theorem C6_counterexample :
    ((checkRun ⟨60, 600, 86400, []⟩ []
        [(ParsedMessage.vesselDynamicData 5 false none none, 100)]).2.map
          RateEvent.accepted = [true]) ∧
    ((checkRun ⟨60, 600, 86400, []⟩ []
        [(ParsedMessage.vesselDynamicData 5 false none none, 110)]).2.map
          RateEvent.accepted = [true]) ∧
    ((110 : ℚ) - 100 < 60) ∧
    ((checkRun ⟨60, 600, 86400, []⟩ []
        [(ParsedMessage.vesselDynamicData 5 false none none, 1000),
         (ParsedMessage.vesselStaticData 5 true, 1001)]).2.map
          RateEvent.accepted = [true, false]) := by
  refine ⟨?_, ?_, by norm_num, ?_⟩ <;>
    norm_num [checkRun, checkLastSent, msgKey, msgRatedInterval, ratedInterval,
      lookupRow, insertRow, durationSinceSecs, max_def]

/-- C6 (corrected, amended): within a single Dispatcher instance (the
`last_sent` table is reset when `main` rebuilds the Dispatcher after an
I/O error), for every MMSI and field, two consecutive broadcasts accepted
by `check_last_sent` under a monotone clock are at least the second
message's selected interval apart (`location_interval` when own_vessel is
true, else `interval`); and a message for an MMSI with no row yet always
passes, because the row is seeded with timestamps `now - interval`. -/
theorem C6_rate_limit_gap (cfg : Config) (trace : List (ParsedMessage × Instant))
    (k : Nat × Bool) (bs ms cs : List RateEvent) (e1 e2 : RateEvent)
    (hmono : (trace.map Prod.snd).Pairwise (· ≤ ·))
    (hev : (checkRun cfg [] trace).2 = bs ++ e1 :: ms ++ e2 :: cs)
    (h1 : acceptedFor k e1) (h2 : acceptedFor k e2)
    (hms : ∀ e ∈ ms, ¬ acceptedFor k e) :
    ((e2.interval : ℚ) ≤ e2.time - e1.time) ∧
    (∀ (table : LastSentTable) (m : ParsedMessage) (now : Instant) (k2 : Nat × Bool),
      msgKey m = some k2 → lookupRow table k2.1 = none →
      (checkLastSent cfg table m now).1 = true) := by
  refine ⟨?_, fun table m now k2 hkey hrow =>
    checkLastSent_fresh_accept cfg table m now k2 hkey hrow⟩
  have hd := checkRun_consecutive_gap cfg k trace [] bs ms cs e1 e2 hev h1 h2 hms
  have htimes := checkRun_times cfg trace []
  rw [hev] at htimes
  rw [← htimes] at hmono
  have hsub12 : List.Sublist [e1, e2] (bs ++ e1 :: ms ++ e2 :: cs) := by
    have hx1 : List.Sublist [e1] (bs ++ e1 :: ms) :=
      List.Sublist.trans (List.Sublist.cons₂ e1 (List.nil_sublist ms))
        (List.sublist_append_right bs (e1 :: ms))
    have hx2 : List.Sublist [e2] (e2 :: cs) := List.Sublist.cons₂ e2 (List.nil_sublist cs)
    exact hx1.append hx2
  have hp2 := List.Pairwise.sublist (hsub12.map RateEvent.time) hmono
  simp only [List.map_cons, List.map_nil] at hp2
  have hle : e1.time ≤ e2.time :=
    (List.pairwise_cons.mp hp2).1 e2.time (List.mem_cons_self _ _)
  rw [durationSinceSecs, max_eq_left (by linarith)] at hd
  calc (e2.interval : ℚ) = (((e2.interval : ℕ) : ℤ) : ℚ) := by push_cast; ring
    _ ≤ ((⌊e2.time - e1.time⌋ : ℤ) : ℚ) := by exact_mod_cast hd
    _ ≤ e2.time - e1.time := Int.floor_le _

/-- Witness for C6's amended claim: two accepted dynamic broadcasts for
MMSI 5, 60 seconds apart, in one instance. -/
theorem C6_witness :
    (([(ParsedMessage.vesselDynamicData 5 false none none, (0 : ℚ)),
        (ParsedMessage.vesselDynamicData 5 false none none, 60)].map
          Prod.snd).Pairwise (· ≤ ·)) ∧
    ((checkRun ⟨60, 600, 86400, []⟩ []
        [(ParsedMessage.vesselDynamicData 5 false none none, 0),
         (ParsedMessage.vesselDynamicData 5 false none none, 60)]).2
      = [] ++ (⟨some (5, true), true, 60, 0⟩ : RateEvent) ::
          [] ++ (⟨some (5, true), true, 60, 60⟩ : RateEvent) :: []) ∧
    (acceptedFor (5, true) (⟨some (5, true), true, 60, 0⟩ : RateEvent)) ∧
    (acceptedFor (5, true) (⟨some (5, true), true, 60, 60⟩ : RateEvent)) ∧
    ((((⟨some (5, true), true, 60, 60⟩ : RateEvent).interval : ℚ)
        ≤ (⟨some (5, true), true, 60, 60⟩ : RateEvent).time
          - (⟨some (5, true), true, 60, 0⟩ : RateEvent).time) ∧
      (∀ (table : LastSentTable) (m : ParsedMessage) (now : Instant) (k2 : Nat × Bool),
        msgKey m = some k2 → lookupRow table k2.1 = none →
        (checkLastSent ⟨60, 600, 86400, []⟩ table m now).1 = true)) := by
  have hmono : ([(ParsedMessage.vesselDynamicData 5 false none none, (0 : ℚ)),
      (ParsedMessage.vesselDynamicData 5 false none none, 60)].map
        Prod.snd).Pairwise (· ≤ ·) := by
    norm_num [List.pairwise_cons]
  have hev : (checkRun ⟨60, 600, 86400, []⟩ []
      [(ParsedMessage.vesselDynamicData 5 false none none, 0),
       (ParsedMessage.vesselDynamicData 5 false none none, 60)]).2
      = [] ++ (⟨some (5, true), true, 60, 0⟩ : RateEvent) ::
          [] ++ (⟨some (5, true), true, 60, 60⟩ : RateEvent) :: [] := by
    norm_num [checkRun, checkLastSent, msgKey, msgRatedInterval, ratedInterval,
      lookupRow, insertRow, durationSinceSecs, max_def]
  exact ⟨hmono, hev, ⟨rfl, rfl⟩, ⟨rfl, rfl⟩,
    C6_rate_limit_gap ⟨60, 600, 86400, []⟩
      [(ParsedMessage.vesselDynamicData 5 false none none, 0),
       (ParsedMessage.vesselDynamicData 5 false none none, 60)]
      (5, true) [] [] [] ⟨some (5, true), true, 60, 0⟩
      ⟨some (5, true), true, 60, 60⟩ hmono hev ⟨rfl, rfl⟩ ⟨rfl, rfl⟩
      (fun e he => absurd he (List.not_mem_nil e))⟩

end Claims6

